import Mathlib

/-! SplashyEngine: the OpenGL shader pipeline (`ant::OpenGl::GlShader`).

A shallow embedding of `Engine/src/Platform/OpenGl/OpenGlShader.cpp`.

* `std::string` is a list of characters, `std::vector<uint32_t>` a list of
  naturals kept below `2 ^ 32`, a file a list of bytes (naturals below 256).
* The member maps of `GlShader` are association lists (`StageMap`).
* Everything outside the translation unit (the file system, shaderc,
  spirv-cross and the OpenGL driver) is explicit: the file system is a value
  (`Disk`), the compiler, the reflection compiler and the driver are oracles
  (`Toolchain`, `GlDevice`), and every call that leaves the translation unit
  is appended to a trace of `Event`s.
* A failed `CORE_ASSERT` ends the run: `Outcome.fatal` carries the failure and
  the state reached when the assertion fired.
-/

namespace ant.OpenGl

/-! ## Basic types -/

/-- The `std::string` of the source: a sequence of characters. -/
abbrev StdString := List Char

/-- The `GLenum` of `Gl.h`: an unsigned 32-bit value. -/
abbrev GLenum := Nat

/-- Value of `GL_INVALID_ENUM` in the OpenGL headers (`Gl.h` is included, not defined, by the source). -/
def GL_INVALID_ENUM : GLenum := 0x0500

/-- Value of `GL_FRAGMENT_SHADER` in the OpenGL headers. -/
def GL_FRAGMENT_SHADER : GLenum := 0x8B30

/-- Value of `GL_VERTEX_SHADER` in the OpenGL headers. -/
def GL_VERTEX_SHADER : GLenum := 0x8B31

/-- Value of `GL_FALSE` in the OpenGL headers. -/
def GL_FALSE : Nat := 0

/-- Ways in which a run ends before the function returns. -/
inductive Fatal where
  /-- A `CORE_ASSERT` whose condition was false, with its message. -/
  | assertion (message : StdString)
  /-- The `std::filesystem::filesystem_error` thrown by `file_size` on a missing file. -/
  | filesystem_error (path : StdString)
  /-- A `read` that was told to copy `readBytes` bytes into `storageBytes` bytes of storage,
  fewer than it copies: it writes past the storage (through a null pointer when there is no
  storage at all) and the behaviour is undefined. The run is taken to end there. -/
  | overrun (path : StdString) (storageBytes readBytes : Nat)
  deriving DecidableEq, Repr

/-- Modelled from the spec: the `CORE_ASSERT` macro of `Core/Core.hpp` (not among the
sources). The spec calls every `CORE_ASSERT` a fatal check that aborts construction, so
a run either finishes in a state (`done`) or stops at a failed check (`fatal`), in which
case the state reached so far is kept for inspection. -/
inductive Outcome (σ : Type) where
  | done (s : σ)
  | fatal (e : Fatal) (s : σ)
  deriving DecidableEq, Repr

/-- The run finished. -/
def Outcome.isDone {σ : Type} : Outcome σ → Bool
  | .done _ => true
  | .fatal _ _ => false

/-- State carried by an outcome, finished or not. -/
def Outcome.state {σ : Type} : Outcome σ → σ
  | .done s => s
  | .fatal _ s => s

/-- Modelled from the spec: the container of `m_sources`, `m_vulcanSPIRV` and
`m_openglSPIRV` (declared in `OpenGlShader.hpp`, not among the sources). The spec calls it
a mapping from stage to value; it is kept as an association list whose entries stand in
the order in which the loops visit them. -/
abbrev StageMap (α : Type) := List (GLenum × α)

/-- Lookup of a key (`find`). -/
def StageMap.find {α : Type} : StageMap α → GLenum → Option α
  | [], _ => none
  | (k, v) :: rest, key => if k = key then some v else StageMap.find rest key

/-- The `m[key]` of the source followed by a change of the referenced value: the entry is
created from `dflt` (the value-initialised element) when the key is absent. -/
def StageMap.update {α : Type} : StageMap α → GLenum → α → (α → α) → StageMap α
  | [], key, dflt, f => [(key, f dflt)]
  | (k, v) :: rest, key, dflt, f =>
    if k = key then (k, f v) :: rest else (k, v) :: StageMap.update rest key dflt f

/-- The object state of `GlShader`. -/
structure GlShader where
  m_name : StdString
  m_filePath : StdString
  m_sources : StageMap StdString
  m_vulcanSPIRV : StageMap (List Nat)
  m_openglSPIRV : StageMap (List Nat)
  m_glProgram : Nat
  deriving DecidableEq, Repr

/-! ## `GlShader::Parse` -/

/-- Successive results of `std::getline(file, line)` on a stream holding `text`, up to
the first call that fails: a line ends at `'\n'` (not stored) or at the end of the file,
and a call that extracts nothing at the end of the file fails. -/
def getlines : StdString → List StdString
  | [] => []
  | c :: cs =>
    if c = '\n' then [] :: getlines cs
    else
      match getlines cs with
      | [] => [[c]]
      | l :: ls => (c :: l) :: ls

/-- The marker line of the vertex stage. -/
def vertexMarker : StdString := "#vertexShader".toList

/-- The marker line of the fragment stage. -/
def fragmentMarker : StdString := "#fragmentShader".toList

/-- Message of the assertion in `Parse`. -/
def checkShaderDefinitions : StdString := "Check shader definitions".toList

/-- Local variables of the loop of `Parse` together with the member it writes. -/
structure ParseLoop where
  type : GLenum
  m_sources : StageMap StdString
  deriving DecidableEq, Repr

/-- One iteration of the `while (std::getline(file, line))` loop of `Parse`. -/
def Parse.body (st : ParseLoop) (line : StdString) : Outcome ParseLoop :=
  if line = vertexMarker then
    .done { st with type := GL_VERTEX_SHADER }
  else if line = fragmentMarker then
    .done { st with type := GL_FRAGMENT_SHADER }
  else
    let line := line ++ ['\n']
    if st.type = GL_INVALID_ENUM then
      .fatal (.assertion checkShaderDefinitions) st
    else
      .done { st with m_sources := st.m_sources.update st.type [] (fun s => s ++ line) }

/-- The loop of `Parse` over the lines the stream delivers. -/
def Parse.loop : ParseLoop → List StdString → Outcome ParseLoop
  | st, [] => .done st
  | st, line :: rest =>
    match Parse.body st line with
    | .done st1 => Parse.loop st1 rest
    | .fatal e st1 => .fatal e st1

/-- `GlShader::Parse`, on the text of the file at `filePath`. -/
def GlShader.Parse (self : GlShader) (fileText : StdString) : Outcome GlShader :=
  match Parse.loop { type := GL_INVALID_ENUM, m_sources := self.m_sources } (getlines fileText) with
  | .done st => .done { self with m_sources := st.m_sources }
  | .fatal e st => .fatal e { self with m_sources := st.m_sources }

/-- A freshly constructed shader object: empty maps, the program handle from the driver. -/
def GlShader.fresh (program : Nat) : GlShader :=
  { m_name := [], m_filePath := [], m_sources := [], m_vulcanSPIRV := [], m_openglSPIRV := [],
    m_glProgram := program }

/-! ### The splitter as the specification words it -/

/-- A line is a recognised stage marker. -/
def isStageMarker (line : StdString) : Prop := line = vertexMarker ∨ line = fragmentMarker

instance (line : StdString) : Decidable (isStageMarker line) := by
  unfold isStageMarker; infer_instance

/-- Stage a marker line switches to. -/
def markerStage (line : StdString) : GLenum :=
  if line = vertexMarker then GL_VERTEX_SHADER
  else if line = fragmentMarker then GL_FRAGMENT_SHADER
  else GL_INVALID_ENUM

/-- Stage that is current after the lines `before` were read: the stage of the last marker
among them, and none (`GL_INVALID_ENUM`) when there is no marker. -/
def currentStage (before : List StdString) : GLenum :=
  match before.reverse.find? (fun l => decide (isStageMarker l)) with
  | some m => markerStage m
  | none => GL_INVALID_ENUM

/-- Spec-side source of a stage: the lines of `rest` that are not markers and are read
while `stage` is current, in file order, each followed by one newline. `before` holds the
lines already read. -/
def stageContent (stage : GLenum) : List StdString → List StdString → StdString
  | _, [] => []
  | before, l :: rest =>
    (if ¬ isStageMarker l ∧ currentStage before = stage then l ++ ['\n'] else [])
      ++ stageContent stage (before ++ [l]) rest

/-- The failure the spec names `MissingStageMarker`: the assertion of `Parse`. -/
def MissingStageMarker : Fatal := .assertion checkShaderDefinitions

/-- Content a stage gains, joined to what the map already held for it. -/
def joinContent (old : Option StdString) (c : StdString) : Option StdString :=
  if c = [] then old else some (old.getD [] ++ c)

/-! ## The world outside the translation unit -/

/-- The `std::filesystem::path` of the source, by its characters. -/
abbrev Path := StdString

/-- Options handed to shaderc: target environment, its version, optimisation level. -/
structure CompileOptions where
  targetEnv : Nat
  version : Nat
  optimization : Nat
  deriving DecidableEq, Repr

/-- What `shaderc::Compiler::CompileGlslToSpv` returns: the status, the diagnostic text
and the words between `begin()` and `end()`. -/
structure SpvCompilationResult where
  status : Nat
  errorMessage : StdString
  words : List Nat
  deriving DecidableEq, Repr

/-- The two external compilers: shaderc (`CompileGlslToSpv`, by source, shader kind, input
file name and options) and the reflection compiler of spirv-cross with its format set to
json (`reflectionCompile`, by binary). -/
structure Toolchain where
  CompileGlslToSpv : StdString → Nat → StdString → CompileOptions → SpvCompilationResult
  reflectionCompile : List Nat → StdString

/-- A call that leaves the translation unit. -/
inductive Event where
  | fsExists (path : Path)
  | fsFileSize (path : Path)
  | fsCreateDirectories (path : Path)
  | fsOpenRead (path : Path)
  | fsOpenWrite (path : Path)
  | compileGlslToSpv (source : StdString) (kind : Nat) (inputFileName : StdString)
      (options : CompileOptions)
  | reflectionCompile (binary : List Nat)
  | glCreateShader (stage : GLenum) (id : Nat)
  | glShaderBinary (id : Nat) (binary : List Nat)
  | glSpecializeShader (id : Nat)
  | glGetShaderiv (id : Nat) (pname : GLenum)
  | glGetShaderInfoLog (id : Nat)
  | glAttachShader (program : Nat) (id : Nat)
  | glLinkProgram (program : Nat)
  | glValidateProgram (program : Nat)
  | glDeleteShader (id : Nat)
  | coreTrace (message : StdString)
  deriving DecidableEq, Repr

/-- The OpenGL driver, as far as its answers are read: each answer may depend on every
call made so far. `glCreateShader` gives the new name, `compileStatus` the value
`glGetShaderiv` stores for `GL_COMPILE_STATUS`, `infoLog` the text `glGetShaderInfoLog`
writes. -/
structure GlDevice where
  glCreateShader : List Event → GLenum → Nat
  compileStatus : List Event → Nat → Nat
  infoLog : List Event → Nat → StdString

/-- What a path names on the file system. -/
inductive Node where
  | file (bytes : List Nat)
  | directory
  deriving DecidableEq, Repr

/-- The file system: what each path names (a regular file with its bytes, or a directory;
the first entry of a path counts), and the paths on which opening a stream fails
(permissions, a missing parent directory and the like). -/
structure Disk where
  nodes : List (Path × Node)
  refused : List Path
  deriving DecidableEq, Repr

/-- What the path names, if anything. -/
def Disk.node (d : Disk) (p : Path) : Option Node :=
  (d.nodes.find? (fun e => decide (e.1 = p))).map Prod.snd

/-- Bytes of the regular file at a path, if there is one. -/
def Disk.content (d : Disk) (p : Path) : Option (List Nat) :=
  match d.node p with
  | some (.file bytes) => some bytes
  | _ => none

/-- The `std::filesystem::exists` of the standard library. -/
def Disk.pathExists (d : Disk) (p : Path) : Bool := (d.node p).isSome

/-- The `std::filesystem::file_size` of the standard library: it throws unless the path is
a regular file. -/
def Disk.file_size (d : Disk) (p : Path) : Except Fatal Nat :=
  match d.content p with
  | some bytes => .ok bytes.length
  | none => .error (.filesystem_error p)

/-- An input stream on the path is open after construction. -/
def Disk.opensForRead (d : Disk) (p : Path) : Bool :=
  (d.content p).isSome && decide (p ∉ d.refused)

/-- An output stream on the path is open after construction. -/
def Disk.opensForWrite (d : Disk) (p : Path) : Bool :=
  (match d.node p with
    | some .directory => false
    | _ => true) && decide (p ∉ d.refused)

/-- The file at the path holds exactly `bytes` (created or truncated, then written). -/
def Disk.store (d : Disk) (p : Path) (bytes : List Nat) : Disk :=
  { d with nodes := (p, .file bytes) :: d.nodes.filter (fun e => decide (e.1 ≠ p)) }

/-- The `std::filesystem::create_directories` of the standard library. -/
def Disk.create_directories (d : Disk) (p : Path) : Disk :=
  { d with nodes := (p, .directory) :: d.nodes.filter (fun e => decide (e.1 ≠ p)) }

/-- The file system and the calls made so far, oldest first. -/
structure World where
  disk : Disk
  trace : List Event
  deriving DecidableEq, Repr

/-- Record one call. -/
def World.log (w : World) (e : Event) : World := { w with trace := w.trace ++ [e] }

/-- The event is an invocation of the shader compiler. -/
def Event.isCompile : Event → Bool
  | .compileGlslToSpv _ _ _ _ => true
  | _ => false

/-- Number of compiler invocations in a trace. -/
def compilerCalls (trace : List Event) : Nat := (trace.filter Event.isCompile).length

/-- Names returned by `glCreateShader` in a trace, in call order. -/
def createdShaders : List Event → List Nat
  | [] => []
  | .glCreateShader _ id :: rest => id :: createdShaders rest
  | _ :: rest => createdShaders rest

/-- Names passed to `glDeleteShader` in a trace, in call order. -/
def deletedShaders : List Event → List Nat
  | [] => []
  | .glDeleteShader id :: rest => id :: deletedShaders rest
  | _ :: rest => deletedShaders rest

/-! ## Binary files -/

/-- The four bytes of a 32-bit word in memory (least significant first). -/
def wordToBytes (w : Nat) : List Nat :=
  [w % 256, w / 256 % 256, w / 65536 % 256, w / 16777216 % 256]

/-- The bytes `write((char *)data->data(), data->size() * sizeof(uint32_t))` sends out. -/
def wordsToBytes : List Nat → List Nat
  | [] => []
  | w :: ws => wordToBytes w ++ wordsToBytes ws

/-- The whole words a run of bytes fills, four bytes to a word. -/
def bytesToWords : List Nat → List Nat
  | b0 :: b1 :: b2 :: b3 :: rest =>
    (b0 % 256 + 256 * (b1 % 256) + 65536 * (b2 % 256) + 16777216 * (b3 % 256)) :: bytesToWords rest
  | _ => []

/-- The `std::vector::resize` of the standard library: keep the first `n` elements, fill
up with zeros. -/
def vectorResize (v : List Nat) (n : Nat) : List Nat :=
  v.take n ++ List.replicate (n - v.length) 0

/-- Elements of `destination` after `read` copied `bytes` over its storage: the words the
bytes fill replace the elements they cover (bytes beyond the storage are no element). -/
def readInto (destination : List Nat) (bytes : List Nat) : List Nat :=
  (bytesToWords bytes).take destination.length ++ destination.drop (bytesToWords bytes).length

/-- The bytes of a text as written to a file. -/
def stringBytes (s : StdString) : List Nat := s.map Char.toNat

/-- The text read from the bytes of a file. -/
def bytesString (bytes : List Nat) : StdString := bytes.map Char.ofNat

/-! ## `Utils` -/

/-- Message of the assertion on an unknown stage. -/
def unsupportedShaderStage : StdString := "Unsupported shader stage".toList

/-- `Utils::GetCacheDirectory`. -/
def Utils.GetCacheDirectory : StdString := "cache/shaders".toList

/-- `Utils::GetVulcanCacheFileExtension`. -/
def Utils.GetVulcanCacheFileExtension (stage : GLenum) : Except Fatal StdString :=
  if stage = GL_VERTEX_SHADER then .ok ".vertvshader".toList
  else if stage = GL_FRAGMENT_SHADER then .ok ".pixelvshader".toList
  else .error (.assertion unsupportedShaderStage)

/-- `Utils::GetOpenGlCacheFileExtension`. -/
def Utils.GetOpenGlCacheFileExtension (stage : GLenum) : Except Fatal StdString :=
  if stage = GL_VERTEX_SHADER then .ok ".vertglshader".toList
  else if stage = GL_FRAGMENT_SHADER then .ok ".pixelglshader".toList
  else .error (.assertion unsupportedShaderStage)

/-- `Utils::GetDescriptiorFileExtension`. -/
def Utils.GetDescriptiorFileExtension (stage : GLenum) : Except Fatal StdString :=
  if stage = GL_VERTEX_SHADER then .ok ".vertdesc.json".toList
  else if stage = GL_FRAGMENT_SHADER then .ok ".pixeldesc.json".toList
  else .error (.assertion unsupportedShaderStage)

/-- The `std::filesystem::path::append` of the standard library on a POSIX system: an
absolute operand replaces the path; otherwise the operand follows the path, after a
separator when the path ends in a file name. -/
def Path.append (p : Path) (source : StdString) : Path :=
  match source with
  | '/' :: _ => source
  | _ => if p = [] ∨ p.getLast? = some '/' then p ++ source else p ++ '/' :: source

/-- `Utils::CreateCacheDirectoryIfNeeded`. -/
def Utils.CreateCacheDirectoryIfNeeded (w : World) : World :=
  let dir := Utils.GetCacheDirectory
  let w := w.log (.fsExists dir)
  if w.disk.pathExists dir then w
  else { (w.log (.fsCreateDirectories dir)) with disk := w.disk.create_directories dir }

/-- `Utils::GetVulcanCachePath`. -/
def Utils.GetVulcanCachePath (name : StdString) (stage : GLenum) : Except Fatal Path :=
  match Utils.GetVulcanCacheFileExtension stage with
  | .ok ext => .ok (Path.append Utils.GetCacheDirectory (name ++ ext))
  | .error e => .error e

/-- `Utils::GetOpenGlCachePath`. -/
def Utils.GetOpenGlCachePath (name : StdString) (stage : GLenum) : Except Fatal Path :=
  match Utils.GetOpenGlCacheFileExtension stage with
  | .ok ext => .ok (Path.append Utils.GetCacheDirectory (name ++ ext))
  | .error e => .error e

/-- `Utils::HasCacheFile`: `exists(path) && file_size(path)`. -/
def Utils.HasCacheFile (w : World) (path : Path) : Except Fatal Bool × World :=
  let w := w.log (.fsExists path)
  if w.disk.pathExists path then
    let w := w.log (.fsFileSize path)
    match w.disk.file_size path with
    | .ok size => (.ok (size != 0), w)
    | .error e => (.error e, w)
  else (.ok false, w)

/-- Value of `shaderc_vertex_shader` in the shaderc headers. -/
def shaderc_vertex_shader : Nat := 0

/-- Value of `shaderc_fragment_shader` in the shaderc headers. -/
def shaderc_fragment_shader : Nat := 1

/-- `Utils::GlEnumToShadercKind`. -/
def Utils.GlEnumToShadercKind (type : GLenum) : Except Fatal Nat :=
  if type = GL_VERTEX_SHADER then .ok shaderc_vertex_shader
  else if type = GL_FRAGMENT_SHADER then .ok shaderc_fragment_shader
  else .error (.assertion unsupportedShaderStage)

/-- `Utils::GlEnumToStageString`. -/
def Utils.GlEnumToStageString (type : GLenum) : Except Fatal StdString :=
  if type = GL_VERTEX_SHADER then .ok "vertex".toList
  else if type = GL_FRAGMENT_SHADER then .ok "fragment".toList
  else .error (.assertion unsupportedShaderStage)

/-- `Utils::LoadBinary`: the new elements of `*destination`. The destination is resized to
`dataSize / sizeof(uint32_t)` elements and `read` is told to copy `dataSize` bytes over
them; when the size of the file is no multiple of four these are more bytes than the
destination has, and the call ends in `Fatal.overrun`. -/
def Utils.LoadBinary (w : World) (path : Path) (destination : List Nat) :
    Except Fatal (List Nat) × World :=
  let w := w.log (.fsFileSize path)
  match w.disk.file_size path with
  | .error e => (.error e, w)
  | .ok dataSize =>
    let w := w.log (.fsOpenRead path)
    if w.disk.opensForRead path then
      let resized := vectorResize destination (dataSize / 4)
      if dataSize ≤ 4 * resized.length then
        (.ok (readInto resized (((w.disk.content path).getD []).take dataSize)), w)
      else (.error (.overrun path (4 * resized.length) dataSize), w)
    else (.ok destination, w)

/-- `Utils::SaveBinary`. -/
def Utils.SaveBinary (w : World) (path : Path) (data : List Nat) : World :=
  let w := w.log (.fsOpenWrite path)
  if w.disk.opensForWrite path then
    { w with disk := w.disk.store path (wordsToBytes data) }
  else w

/-- Modelled from the spec: the enumeration `RenderApi` (declared outside the sources); the
spec knows the native-execution target and the portable-IR target. -/
inductive RenderApi where
  | OpenGl
  | Vulcan
  deriving DecidableEq, Repr

/-- Value of `shaderc_target_env_vulkan` in the shaderc headers. -/
def shaderc_target_env_vulkan : Nat := 0

/-- Value of `shaderc_target_env_opengl` in the shaderc headers. -/
def shaderc_target_env_opengl : Nat := 1

/-- `Utils::RenderApiEnumToShaderc`. -/
def Utils.RenderApiEnumToShaderc (api : RenderApi) : Nat :=
  match api with
  | .OpenGl => shaderc_target_env_opengl
  | .Vulcan => shaderc_target_env_vulkan

/-! ## `GlShader` -/

/-- Message of the first assertion of `FromSource`. -/
def nameNotProvided : StdString := "Name not provided!".toList

/-- Message of the second assertion of `FromSource`. -/
def vertexSourceNotProvided : StdString := "Vertex shader source not provided!".toList

/-- Message of the third assertion of `FromSource`. -/
def fragmentSourceNotProvided : StdString := "Fragment shader source not provided!".toList

/-- `GlShader::FromSource`. -/
def GlShader.FromSource (self : GlShader) (name vertexSrc fragmentSrc : StdString) :
    Outcome GlShader :=
  if name = [] then .fatal (.assertion nameNotProvided) self
  else if vertexSrc = [] then .fatal (.assertion vertexSourceNotProvided) self
  else if fragmentSrc = [] then .fatal (.assertion fragmentSourceNotProvided) self
  else
    let self := { self with m_name := name }
    let self := { self with
      m_sources := self.m_sources.update GL_VERTEX_SHADER [] (fun _ => vertexSrc) }
    .done { self with
      m_sources := self.m_sources.update GL_FRAGMENT_SHADER [] (fun _ => fragmentSrc) }

/-- Message built in the loop of `Init` for a stage whose source is empty. -/
def thereHasToBeSource (stageString : StdString) : StdString :=
  "There has to be a ".toList ++ stageString ++ " source!".toList

/-- The loop that opens `Init`: the failure of the first entry whose source has length
zero, if there is one. -/
def Init.validate : StageMap StdString → Option Fatal
  | [] => none
  | (stage, source) :: rest =>
    if source.length = 0 then
      match Utils.GlEnumToStageString stage with
      | .ok s => some (.assertion (thereHasToBeSource s))
      | .error e => some e
    else Init.validate rest

/-- The failure the spec names `MissingSource` for a stage: the assertion of `FromSource`
on that stage, or the assertion of the loop of `Init` on it. -/
def MissingSource (stage : GLenum) (e : Fatal) : Prop :=
  (stage = GL_VERTEX_SHADER ∧
    (e = .assertion vertexSourceNotProvided ∨ e = .assertion (thereHasToBeSource "vertex".toList)))
  ∨ (stage = GL_FRAGMENT_SHADER ∧
    (e = .assertion fragmentSourceNotProvided
      ∨ e = .assertion (thereHasToBeSource "fragment".toList)))

instance (stage : GLenum) (e : Fatal) : Decidable (MissingSource stage e) := by
  unfold MissingSource; infer_instance

/-- Value of `shaderc_env_version_vulkan_1_2` in the shaderc headers. -/
def shaderc_env_version_vulkan_1_2 : Nat := 4202496

/-- Value of `shaderc_env_version_opengl_4_5` in the shaderc headers. -/
def shaderc_env_version_opengl_4_5 : Nat := 450

/-- Value of `shaderc_optimization_level_zero` in the shaderc headers. -/
def shaderc_optimization_level_zero : Nat := 0

/-- Value of `shaderc_optimization_level_performance` in the shaderc headers. -/
def shaderc_optimization_level_performance : Nat := 2

/-- Value of `shaderc_compilation_status_success` in the shaderc headers. -/
def shaderc_compilation_status_success : Nat := 0

/-- Message of the assertion of `CompileSpirv` on the compilation status. -/
def failedToCompile (name errorMessage : StdString) : StdString :=
  "Shader \x7b".toList ++ name ++ "\x7d failed to compile: ".toList ++ errorMessage

/-- The `shaderc::CompileOptions` that `CompileSpirv` sets up. -/
def CompileSpirv.options (targetEnv : RenderApi) (optimize : Bool) : CompileOptions :=
  let version :=
    if targetEnv = .Vulcan then shaderc_env_version_vulkan_1_2 else shaderc_env_version_opengl_4_5
  let optimization :=
    if optimize then shaderc_optimization_level_performance else shaderc_optimization_level_zero
  { targetEnv := Utils.RenderApiEnumToShaderc targetEnv, version := version,
    optimization := optimization }

/-- `GlShader::CompileSpirv`: the new elements of `target`. The assertion on `targetEnv`
holds for both enumerators. -/
def GlShader.CompileSpirv (tc : Toolchain) (self : GlShader) (w : World) (target : List Nat)
    (source : StdString) (stage : GLenum) (targetEnv : RenderApi) (optimize : Bool) :
    Outcome (List Nat × World) :=
  let options := CompileSpirv.options targetEnv optimize
  match Utils.GlEnumToShadercKind stage with
  | .error e => .fatal e (target, w)
  | .ok kind =>
    let w := w.log (.compileGlslToSpv source kind self.m_filePath options)
    let result := tc.CompileGlslToSpv source kind self.m_filePath options
    if result.status = shaderc_compilation_status_success then
      .done (result.words.map (fun x => x % 4294967296), w)
    else
      .fatal (.assertion (failedToCompile self.m_name result.errorMessage)) (target, w)

/-- Body of the loop that `GetVulcanBinaries` and `GetOpenGlBinaries` share word for word,
up to the path function `pathOf`, the target `api` and the member map `m` they fill:
the cached file is loaded when `HasCacheFile` holds, else the stage is compiled and saved. -/
def resolveBinaries.body (tc : Toolchain) (self : GlShader)
    (pathOf : StdString → GLenum → Except Fatal Path) (api : RenderApi)
    (st : StageMap (List Nat) × World) (entry : GLenum × StdString) :
    Outcome (StageMap (List Nat) × World) :=
  let m := st.1
  let stage := entry.1
  let source := entry.2
  match pathOf self.m_name stage with
  | .error e => .fatal e (m, st.2)
  | .ok path =>
    match Utils.HasCacheFile st.2 path with
    | (.error e, w1) => .fatal e (m, w1)
    | (.ok true, w1) =>
      let m1 := m.update stage [] id
      match Utils.LoadBinary w1 path ((m1.find stage).getD []) with
      | (.error e, w2) => .fatal e (m1, w2)
      | (.ok destination, w2) => .done (m1.update stage [] (fun _ => destination), w2)
    | (.ok false, w1) =>
      let m1 := m.update stage [] id
      match GlShader.CompileSpirv tc self w1 ((m1.find stage).getD []) source stage api true with
      | .fatal e (_, w2) => .fatal e (m1, w2)
      | .done (target, w2) =>
        let m2 := m1.update stage [] (fun _ => target)
        .done (m2, Utils.SaveBinary w2 path ((m2.find stage).getD []))

/-- The loop `for (auto &[stage, source] : m_sources)` around `resolveBinaries.body`. -/
def resolveBinaries.loop (tc : Toolchain) (self : GlShader)
    (pathOf : StdString → GLenum → Except Fatal Path) (api : RenderApi) :
    StageMap (List Nat) × World → StageMap StdString → Outcome (StageMap (List Nat) × World)
  | st, [] => .done st
  | st, entry :: rest =>
    match resolveBinaries.body tc self pathOf api st entry with
    | .done st1 => resolveBinaries.loop tc self pathOf api st1 rest
    | .fatal e st1 => .fatal e st1

/-- `GlShader::GetVulcanBinaries`. -/
def GlShader.GetVulcanBinaries (tc : Toolchain) (self : GlShader) (w : World) :
    Outcome (GlShader × World) :=
  match resolveBinaries.loop tc self Utils.GetVulcanCachePath .Vulcan ([], w) self.m_sources with
  | .done (m, w1) => .done ({ self with m_vulcanSPIRV := m }, w1)
  | .fatal e (m, w1) => .fatal e ({ self with m_vulcanSPIRV := m }, w1)

/-- `GlShader::GetOpenGlBinaries`. -/
def GlShader.GetOpenGlBinaries (tc : Toolchain) (self : GlShader) (w : World) :
    Outcome (GlShader × World) :=
  let w := Utils.CreateCacheDirectoryIfNeeded w
  match resolveBinaries.loop tc self Utils.GetOpenGlCachePath .OpenGl ([], w) self.m_sources with
  | .done (m, w1) => .done ({ self with m_openglSPIRV := m }, w1)
  | .fatal e (m, w1) => .fatal e ({ self with m_openglSPIRV := m }, w1)

/-- Value of `GL_COMPILE_STATUS` in the OpenGL headers. -/
def GL_COMPILE_STATUS : GLenum := 0x8B81

/-- Value of `GL_INFO_LOG_LENGTH` in the OpenGL headers. -/
def GL_INFO_LOG_LENGTH : GLenum := 0x8B84

/-- Message of the assertion of `ComposeGlProgram`. -/
def injectionFailed (stageString mes : StdString) : StdString :=
  stageString ++ " GlShader injection failed! ".toList ++ mes

/-- The loop `for (auto id : componentIds) glDeleteShader(id);`. -/
def deleteShaders (w : World) : List Nat → World
  | [] => w
  | id :: rest => deleteShaders (w.log (.glDeleteShader id)) rest

/-- Local variable of `ComposeGlProgram` and the world. -/
structure ComposeLoop where
  componentIds : List Nat
  world : World
  deriving DecidableEq, Repr

/-- One iteration of the loop of `ComposeGlProgram` over `m_openglSPIRV`. -/
def ComposeGlProgram.body (gl : GlDevice) (self : GlShader) (st : ComposeLoop)
    (entry : GLenum × List Nat) : Outcome ComposeLoop :=
  let stage := entry.1
  let binary := entry.2
  let shaderId := gl.glCreateShader st.world.trace stage
  let w := st.world.log (.glCreateShader stage shaderId)
  let componentIds := st.componentIds ++ [shaderId]
  let w := w.log (.glShaderBinary shaderId binary)
  let w := w.log (.glSpecializeShader shaderId)
  let res := gl.compileStatus w.trace shaderId
  let w := w.log (.glGetShaderiv shaderId GL_COMPILE_STATUS)
  if res = GL_FALSE then
    let w := w.log (.glGetShaderiv shaderId GL_INFO_LOG_LENGTH)
    let mes := gl.infoLog w.trace shaderId
    let w := w.log (.glGetShaderInfoLog shaderId)
    match Utils.GlEnumToStageString stage with
    | .error e => .fatal e { componentIds := componentIds, world := w }
    | .ok stageString =>
      let w := deleteShaders w componentIds
      .fatal (.assertion (injectionFailed stageString mes)) { componentIds := componentIds, world := w }
  else
    .done { componentIds := componentIds, world := w.log (.glAttachShader self.m_glProgram shaderId) }

/-- The loop of `ComposeGlProgram`. -/
def ComposeGlProgram.loop (gl : GlDevice) (self : GlShader) :
    ComposeLoop → StageMap (List Nat) → Outcome ComposeLoop
  | st, [] => .done st
  | st, entry :: rest =>
    match ComposeGlProgram.body gl self st entry with
    | .done st1 => ComposeGlProgram.loop gl self st1 rest
    | .fatal e st1 => .fatal e st1

/-- `GlShader::ComposeGlProgram`. -/
def GlShader.ComposeGlProgram (gl : GlDevice) (self : GlShader) (w : World) : Outcome World :=
  match ComposeGlProgram.loop gl self { componentIds := [], world := w } self.m_openglSPIRV with
  | .fatal e st => .fatal e st.world
  | .done st =>
    let w := st.world.log (.glLinkProgram self.m_glProgram)
    let w := w.log (.glValidateProgram self.m_glProgram)
    .done (deleteShaders w st.componentIds)

/-- Message of the assertion of `CreateDesctiptorIfNeeded` on the stream it reads. -/
def cannotOpenFile : StdString := "cannot open file".toList

/-- Message of the assertion of `CreateDesctiptorIfNeeded` on the stream it writes. -/
def cannotCreateFile : StdString := "cannot create file".toList

/-- One iteration of the loop of `CreateDesctiptorIfNeeded`. -/
def CreateDesctiptorIfNeeded.body (tc : Toolchain) (self : GlShader) (w : World)
    (entry : GLenum × StdString) : Outcome World :=
  let stage := entry.1
  let source := entry.2
  match Utils.GetDescriptiorFileExtension stage with
  | .error e => .fatal e w
  | .ok ext =>
    let path := Path.append Utils.GetCacheDirectory (self.m_name ++ ext)
    match Utils.HasCacheFile w path with
    | (.error e, w1) => .fatal e w1
    | (.ok true, w1) =>
      let w2 := w1.log (.fsOpenRead path)
      if w2.disk.opensForRead path then
        let w3 := w2.log (.fsFileSize path)
        match w3.disk.file_size path with
        | .error e => .fatal e w3
        | .ok size =>
          let json := bytesString (((w3.disk.content path).getD []).take size)
          .done (w3.log (.coreTrace json))
      else .fatal (.assertion cannotOpenFile) w2
    | (.ok false, w1) =>
      match GlShader.CompileSpirv tc self w1 [] source stage .Vulcan false with
      | .fatal e (_, w2) => .fatal e w2
      | .done (binary, w2) =>
        let w3 := w2.log (.reflectionCompile binary)
        let json := tc.reflectionCompile binary
        let w4 := w3.log (.fsOpenWrite path)
        if w4.disk.opensForWrite path then
          let w5 := { w4 with disk := w4.disk.store path (stringBytes json) }
          .done (w5.log (.coreTrace json))
        else .fatal (.assertion cannotCreateFile) w4

/-- `GlShader::CreateDesctiptorIfNeeded`: the loop over `m_sources`. -/
def GlShader.CreateDesctiptorIfNeeded (tc : Toolchain) (self : GlShader) :
    World → StageMap StdString → Outcome World
  | w, [] => .done w
  | w, entry :: rest =>
    match CreateDesctiptorIfNeeded.body tc self w entry with
    | .done w1 => GlShader.CreateDesctiptorIfNeeded tc self w1 rest
    | .fatal e w1 => .fatal e w1

/-- `GlShader::Init`. -/
def GlShader.Init (tc : Toolchain) (gl : GlDevice) (self : GlShader) (w : World) :
    Outcome (GlShader × World) :=
  match Init.validate self.m_sources with
  | some e => .fatal e (self, w)
  | none =>
    let w := Utils.CreateCacheDirectoryIfNeeded w
    match GlShader.GetVulcanBinaries tc self w with
    | .fatal e st => .fatal e st
    | .done (self, w) =>
      match GlShader.GetOpenGlBinaries tc self w with
      | .fatal e st => .fatal e st
      | .done (self, w) =>
        match GlShader.ComposeGlProgram gl self w with
        | .fatal e w => .fatal e (self, w)
        | .done w =>
          match GlShader.CreateDesctiptorIfNeeded tc self w self.m_sources with
          | .fatal e w => .fatal e (self, w)
          | .done w => .done ({ self with m_sources := [] }, w)

/-- Construction of a pipeline from sources held in memory, as the callers do it:
`FromSource` on a new object, then `Init`. -/
def GlShader.FromSourceThenInit (tc : Toolchain) (gl : GlDevice) (self : GlShader) (w : World)
    (name vertexSrc fragmentSrc : StdString) : Outcome (GlShader × World) :=
  match self.FromSource name vertexSrc fragmentSrc with
  | .fatal e self => .fatal e (self, w)
  | .done self => GlShader.Init tc gl self w

/-! ## The cache as the specification words it -/

/-- A cache artifact is present: its file exists and has non-zero size. -/
def CachePresent (d : Disk) (p : Path) : Prop :=
  ∃ bytes, d.content p = some bytes ∧ bytes ≠ []

/-- The file of a binary artifact holds whole 32-bit words: its size is a multiple of four. -/
def WholeWords (d : Disk) (p : Path) : Prop :=
  ((d.content p).getD []).length % 4 = 0

instance (d : Disk) (p : Path) : Decidable (WholeWords d p) := by
  unfold WholeWords; infer_instance

/-- A binary artifact can be loaded: it is present and holds whole words. -/
def CacheLoadable (d : Disk) (p : Path) : Prop :=
  CachePresent d p ∧ WholeWords d p

instance (d : Disk) (p : Path) : Decidable (CachePresent d p) :=
  match h : d.content p with
  | none => isFalse (fun ⟨_, hb, _⟩ => by rw [h] at hb; exact Option.noConfusion hb)
  | some [] => isFalse (fun ⟨_, hb, hne⟩ => by
      rw [h] at hb; exact hne (Option.some.inj hb).symm)
  | some (b :: bs) => isTrue ⟨b :: bs, h, List.cons_ne_nil b bs⟩

/-- The disk `d1` keeps what was present on `d`: every artifact present on `d` has the same
bytes on `d1`, and the same streams open. -/
def Disk.Preserved (d d1 : Disk) : Prop :=
  d1.refused = d.refused ∧ ∀ p, CachePresent d p → d1.content p = d.content p

/-- The compilers never give an empty result: a successful compilation yields at least one
word (a SPIR-V module starts with a header), and the reflection text is not empty. -/
def Toolchain.NonEmptyOutput (tc : Toolchain) : Prop :=
  (∀ source kind inputFileName options,
    (tc.CompileGlslToSpv source kind inputFileName options).status
        = shaderc_compilation_status_success →
      (tc.CompileGlslToSpv source kind inputFileName options).words ≠ [])
  ∧ ∀ binary, tc.reflectionCompile binary ≠ []

/-- The words the artifact of a stage holds on the disk `d` (none when the stage has no
path). -/
def cachedWords (pathOf : StdString → GLenum → Except Fatal Path) (name : StdString) (d : Disk)
    (stage : GLenum) : List Nat :=
  match pathOf name stage with
  | .ok p => bytesToWords ((d.content p).getD [])
  | .error _ => []

/-- The binary map that results when the binary of every stage of `entries`, in order, is
set to the words of its artifact on the disk `d`. -/
def assignCached (pathOf : StdString → GLenum → Except Fatal Path) (name : StdString) (d : Disk) :
    StageMap StdString → StageMap (List Nat) → StageMap (List Nat)
  | [], m => m
  | entry :: rest, m =>
    assignCached pathOf name d rest
      (m.update entry.1 [] (fun _ => cachedWords pathOf name d entry.1))

/-! ## A sample environment -/

/-- A compiler stub: every compilation succeeds with a five-word module whose last word
tells the kind and the target environment. -/
def stubToolchain : Toolchain :=
  { CompileGlslToSpv := fun _ kind _ options =>
      { status := 0, errorMessage := [],
        words := [0x07230203, 0x00010000, 0, 1, 10 * kind + options.targetEnv] }
    reflectionCompile := fun _ => "\x7b\x7d".toList }

/-- A driver stub: shader names count up from 1 and every stage compiles. -/
def stubDevice : GlDevice :=
  { glCreateShader := fun trace _ => (createdShaders trace).length + 1
    compileStatus := fun _ _ => 1
    infoLog := fun _ _ => [] }

/-- A driver stub on which the second shader created fails to compile. -/
def failingDevice : GlDevice :=
  { glCreateShader := fun trace _ => (createdShaders trace).length + 1
    compileStatus := fun trace _ => if 2 ≤ (createdShaders trace).length then 0 else 1
    infoLog := fun _ _ => "bad".toList }

/-- A shader named `s` with a vertex and a fragment source. -/
def sampleShader : GlShader :=
  { GlShader.fresh 7 with
    m_name := "s".toList
    m_sources := [(GL_VERTEX_SHADER, "A\n".toList), (GL_FRAGMENT_SHADER, "B\n".toList)] }

/-- The sample shader once its native binaries are in place. -/
def sampleWithBinaries : GlShader :=
  { sampleShader with
    m_openglSPIRV := [(GL_VERTEX_SHADER, [119734787]), (GL_FRAGMENT_SHADER, [119734787])] }

/-- An empty file system and no call made. -/
def emptyWorld : World :=
  { disk := { nodes := [], refused := [] }, trace := [] }

/-! ## Failure messages -/

/-- The text begins with the given part. -/
def startsWith : StdString → StdString → Bool
  | _, [] => true
  | [], _ :: _ => false
  | c :: cs, p :: ps => c == p && startsWith cs ps

/-- The given part occurs somewhere in the text. -/
def containsText : StdString → StdString → Bool
  | [], part => startsWith [] part
  | c :: cs, part => startsWith (c :: cs) part || containsText cs part

/-- A compiler stub that rejects every source with the diagnostic `bad`. -/
def rejectingToolchain : Toolchain :=
  { CompileGlslToSpv := fun _ _ _ _ => { status := 2, errorMessage := "bad".toList, words := [] }
    reflectionCompile := fun _ => "\x7b\x7d".toList }

/-! ## Cache files whose stream does not open -/

/-- A file system that holds the portable-IR artifact of the vertex stage of `s`, on which
no stream opens. -/
def unreadableCacheWorld : World :=
  { disk := { nodes := [("cache/shaders/s.vertvshader".toList, .file [3, 2, 35, 7])],
              refused := ["cache/shaders/s.vertvshader".toList] },
    trace := [] }

/-- An empty file system on which the native artifact of the vertex stage of `s` cannot be
created. -/
def unwritableCacheWorld : World :=
  { disk := { nodes := [], refused := ["cache/shaders/s.vertglshader".toList] }, trace := [] }

/-- An empty file system on which the descriptor of the vertex stage of `s` cannot be
created. -/
def unwritableDescriptorWorld : World :=
  { disk := { nodes := [], refused := ["cache/shaders/s.vertdesc.json".toList] }, trace := [] }

/-- What `LoadBinary` asks of `read` once the stream is open: the size in bytes of the
storage of `*destination` after `resize(dataSize / sizeof(uint32_t))`, and the number of
bytes `read` is told to copy into it (`dataSize`). -/
def Utils.LoadBinary.readRequest (w : World) (path : Path) (destination : List Nat) :
    Option (Nat × Nat) :=
  match w.disk.file_size path with
  | .error _ => none
  | .ok dataSize =>
    if w.disk.opensForRead path then
      let resized := vectorResize destination (dataSize / 4)
      some (4 * resized.length, dataSize)
    else none

/-- A file system that holds a five-byte portable-IR artifact for the vertex stage of `s`
(a file cut short while it was written). -/
def truncatedCacheWorld : World :=
  { disk := { nodes := [("cache/shaders/s.vertvshader".toList, .file [3, 2, 35, 7, 1])],
              refused := [] },
    trace := [] }

/-! ## The cache layout as the specification words it -/

/-- The kind of a cache artifact. -/
inductive ArtifactKind where
  | portableIR
  | native
  | descriptor
  deriving DecidableEq, Repr

/-- The extension function of each kind of artifact. -/
def cacheFileExtension : ArtifactKind → GLenum → Except Fatal StdString
  | .portableIR => Utils.GetVulcanCacheFileExtension
  | .native => Utils.GetOpenGlCacheFileExtension
  | .descriptor => Utils.GetDescriptiorFileExtension

/-- The six extensions the specification lists, by kind and stage. -/
def listedExtensions : List (ArtifactKind × GLenum × StdString) :=
  [(.portableIR, GL_VERTEX_SHADER, ".vertvshader".toList),
   (.portableIR, GL_FRAGMENT_SHADER, ".pixelvshader".toList),
   (.native, GL_VERTEX_SHADER, ".vertglshader".toList),
   (.native, GL_FRAGMENT_SHADER, ".pixelglshader".toList),
   (.descriptor, GL_VERTEX_SHADER, ".vertdesc.json".toList),
   (.descriptor, GL_FRAGMENT_SHADER, ".pixeldesc.json".toList)]

/-- The first call a step makes: the first event it adds to the trace `before`. -/
def firstCall (before after : List Event) : Option Event := (after.drop before.length).head?
/-! ## Facts about `StageMap` -/

theorem StageMap_find_update {α : Type} (m : StageMap α) (key : GLenum) (dflt : α) (f : α → α)
    (stage : GLenum) :
    StageMap.find (StageMap.update m key dflt f) stage
      = if stage = key then some (f ((StageMap.find m key).getD dflt)) else StageMap.find m stage := by
  induction m with
  | nil =>
    by_cases h : stage = key
    · simp [StageMap.update, StageMap.find, h]
    · have h2 : ¬ key = stage := fun e => h e.symm
      simp [StageMap.update, StageMap.find, h, h2]
  | cons e rest ih =>
    obtain ⟨k, v⟩ := e
    by_cases hk : k = key
    · by_cases h : stage = key
      · simp [StageMap.update, StageMap.find, hk, h]
      · have h2 : ¬ key = stage := fun e => h e.symm
        simp [StageMap.update, StageMap.find, hk, h, h2]
    · by_cases h : stage = key
      · subst h
        simp [StageMap.update, StageMap.find, hk, ih]
      · by_cases h3 : k = stage
        · simp [StageMap.update, StageMap.find, hk, h, h3]
        · simp [StageMap.update, StageMap.find, hk, h, h3, ih]

/-! ## Facts about the splitter -/

theorem markerStage_ne_invalid (l : StdString) (h : isStageMarker l) :
    markerStage l ≠ GL_INVALID_ENUM := by
  unfold markerStage
  rcases h with h | h
  · subst h; decide
  · subst h; decide

theorem currentStage_snoc (before : List StdString) (l : StdString) :
    currentStage (before ++ [l]) = if isStageMarker l then markerStage l else currentStage before := by
  unfold currentStage
  by_cases h : isStageMarker l
  · simp [List.find?, h]
  · simp [List.find?, h]


theorem Parse_loop_spec (rest : List StdString) :
    ∀ (before : List StdString) (st : ParseLoop),
      st.type = currentStage before → st.type ≠ GL_INVALID_ENUM →
      ∃ m, Parse.loop st rest = .done { type := currentStage (before ++ rest), m_sources := m } ∧
        ∀ stage, StageMap.find m stage
          = joinContent (StageMap.find st.m_sources stage) (stageContent stage before rest) := by
  induction rest with
  | nil =>
    intro before st ht _
    refine ⟨st.m_sources, ?_, ?_⟩
    · simp [Parse.loop, ← ht]
    · intro stage; simp [stageContent, joinContent]
  | cons l rest ih =>
    intro before st ht hne
    by_cases hv : l = vertexMarker
    · have hm : isStageMarker l := Or.inl hv
      have hcur : currentStage (before ++ [l]) = GL_VERTEX_SHADER := by
        rw [currentStage_snoc, if_pos hm, hv]; decide
      obtain ⟨m, hrun, hfind⟩ := ih (before ++ [l]) { st with type := GL_VERTEX_SHADER }
        (by simp [hcur]) (by simp [GL_VERTEX_SHADER, GL_INVALID_ENUM])
      refine ⟨m, ?_, ?_⟩
      · simp only [Parse.loop, Parse.body, hv, if_true]
        rw [hv] at hrun
        simpa using hrun
      · intro stage
        rw [hfind stage]
        simp [stageContent, hm]
    · by_cases hf : l = fragmentMarker
      · have hm : isStageMarker l := Or.inr hf
        have hcur : currentStage (before ++ [l]) = GL_FRAGMENT_SHADER := by
          rw [currentStage_snoc, if_pos hm, hf]; decide
        obtain ⟨m, hrun, hfind⟩ := ih (before ++ [l]) { st with type := GL_FRAGMENT_SHADER }
          (by simp [hcur]) (by simp [GL_FRAGMENT_SHADER, GL_INVALID_ENUM])
        refine ⟨m, ?_, ?_⟩
        · simp only [Parse.loop, Parse.body, hv, hf, if_true, if_false]
          rw [hf] at hrun
          simpa using hrun
        · intro stage
          rw [hfind stage]
          simp [stageContent, hm]
      · have hm : ¬ isStageMarker l := fun h => h.elim hv hf
        have hcur : currentStage (before ++ [l]) = st.type := by
          rw [currentStage_snoc]; simp [hm, ht]
        obtain ⟨m, hrun, hfind⟩ := ih (before ++ [l])
          { st with m_sources := st.m_sources.update st.type [] (fun s => s ++ (l ++ ['\n'])) }
          (by simp [hcur]) hne
        refine ⟨m, ?_, ?_⟩
        · simp only [Parse.loop, Parse.body, hv, hf, hne, if_false]
          simpa using hrun
        · intro stage
          rw [hfind stage]
          simp only [StageMap_find_update, stageContent, hm, not_false_eq_true, true_and, ← ht]
          by_cases hs : stage = st.type
          · subst hs
            simp [joinContent]
          · have hs2 : ¬ st.type = stage := fun e => hs e.symm
            simp [joinContent, hs, hs2]


theorem getlines_ne_nil (text : StdString) (h : text ≠ []) : getlines text ≠ [] := by
  cases text with
  | nil => exact absurd rfl h
  | cons c cs =>
    unfold getlines
    by_cases hc : c = '\n'
    · simp [hc]
    · simp only [hc, if_false]
      cases getlines cs <;> simp

theorem GlShader_with_sources_self (self : GlShader) : { self with m_sources := self.m_sources } = self := by
  cases self; rfl

theorem Parse_loop_fatal_of_content_first (m : StageMap StdString) (l : StdString) (rest : List StdString)
    (hl : ¬ isStageMarker l) :
    Parse.loop { type := GL_INVALID_ENUM, m_sources := m } (l :: rest)
      = .fatal MissingStageMarker { type := GL_INVALID_ENUM, m_sources := m } := by
  have hv : ¬ l = vertexMarker := fun h => hl (Or.inl h)
  have hf : ¬ l = fragmentMarker := fun h => hl (Or.inr h)
  simp [Parse.loop, Parse.body, hv, hf, MissingStageMarker]

/-- C1: on a text whose first line is a recognised marker, `Parse` (from an empty map)
finishes, and for every stage the map holds exactly the lines that are not markers and were
read while the stage was current, in file order and each followed by one newline (no entry
when there is no such line); marker lines reach no source. The text
`"#vertexShader\nA\n#fragmentShader\nB\n"` gives vertex `"A\n"` and fragment `"B\n"`. -/
theorem Parse_yields_stage_sources (self : GlShader) (text first : StdString)
    (rest : List StdString) (hfresh : self.m_sources = [])
    (hlines : getlines text = first :: rest) (hfirst : isStageMarker first) :
    (∃ m, self.Parse text = .done { self with m_sources := m } ∧
      ∀ stage, StageMap.find m stage
        = if stageContent stage [] (getlines text) = [] then none
          else some (stageContent stage [] (getlines text)))
    ∧ self.Parse "#vertexShader\nA\n#fragmentShader\nB\n".toList
        = .done { self with
            m_sources := [(GL_VERTEX_SHADER, "A\n".toList), (GL_FRAGMENT_SHADER, "B\n".toList)] } := by
  constructor
  · have hbody : Parse.body { type := GL_INVALID_ENUM, m_sources := [] } first
        = .done { type := markerStage first, m_sources := [] } := by
      rcases hfirst with h | h
      · subst h; rfl
      · subst h; rfl
    have hcur : markerStage first = currentStage [first] := by
      have := currentStage_snoc [] first
      simp only [List.nil_append, if_pos hfirst] at this
      exact this.symm
    obtain ⟨m, hrun, hfind⟩ := Parse_loop_spec rest [first]
      { type := markerStage first, m_sources := [] } hcur (markerStage_ne_invalid first hfirst)
    refine ⟨m, ?_, ?_⟩
    · simp only [GlShader.Parse, hfresh, hlines, Parse.loop, hbody, hrun]
    · intro stage
      rw [hfind stage, hlines]
      simp [stageContent, hfirst, joinContent, StageMap.find]
  · simp only [GlShader.Parse, hfresh]
    rfl

theorem Parse_yields_stage_sources_witness :
    (GlShader.fresh 0).m_sources = [] ∧
    getlines "#vertexShader\nA\n".toList = [vertexMarker, ['A']] ∧
    isStageMarker vertexMarker ∧
    ∃ m, (GlShader.fresh 0).Parse "#vertexShader\nA\n".toList
        = .done { GlShader.fresh 0 with m_sources := m } ∧
      ∀ stage, StageMap.find m stage
        = if stageContent stage [] (getlines "#vertexShader\nA\n".toList) = [] then none
          else some (stageContent stage [] (getlines "#vertexShader\nA\n".toList)) :=
  ⟨rfl, by decide, Or.inl rfl,
    (Parse_yields_stage_sources (GlShader.fresh 0) "#vertexShader\nA\n".toList vertexMarker [['A']]
      rfl (by decide) (Or.inl rfl)).1⟩

/-- C2: when a line that is not a marker (an empty line included) comes before the first
marker line, `Parse` stops at the `MissingStageMarker` check and the source map, empty
before the call, is still without any entry; so for `"A\n#vertexShader\nB\n"`. -/
theorem Parse_content_before_first_marker (self : GlShader) (text l : StdString)
    (pre post : List StdString) (hfresh : self.m_sources = [])
    (hlines : getlines text = pre ++ l :: post)
    (hpre : ∀ x ∈ pre, ¬ isStageMarker x) (hl : ¬ isStageMarker l) :
    (self.Parse text = .fatal MissingStageMarker self ∧
      (Outcome.state (self.Parse text)).m_sources = [])
    ∧ self.Parse "A\n#vertexShader\nB\n".toList = .fatal MissingStageMarker self := by
  have key : ∀ (x : StdString) (xs : List StdString), ¬ isStageMarker x →
      ∀ t, getlines t = x :: xs → self.Parse t = .fatal MissingStageMarker self := by
    intro x xs hx t ht
    simp only [GlShader.Parse, ht, hfresh, Parse_loop_fatal_of_content_first [] x xs hx]
    rw [← hfresh, GlShader_with_sources_self]
  have hmain : self.Parse text = .fatal MissingStageMarker self := by
    cases pre with
    | nil => exact key l post hl text hlines
    | cons p ps => exact key p (ps ++ l :: post) (hpre p (List.mem_cons_self _ _)) text hlines
  refine ⟨⟨hmain, ?_⟩, ?_⟩
  · rw [hmain]; exact hfresh
  · exact key ['A'] [vertexMarker, ['B']] (by decide) _ (by decide)

theorem Parse_content_before_first_marker_witness :
    (GlShader.fresh 0).m_sources = [] ∧
    getlines "\nA\n#vertexShader\nB\n".toList = [[]] ++ ['A'] :: [vertexMarker, ['B']] ∧
    (∀ x ∈ [([] : StdString)], ¬ isStageMarker x) ∧ ¬ isStageMarker ['A'] ∧
    (GlShader.fresh 0).Parse "\nA\n#vertexShader\nB\n".toList
      = .fatal MissingStageMarker (GlShader.fresh 0) :=
  ⟨rfl, by decide, by decide, by decide,
    (Parse_content_before_first_marker (GlShader.fresh 0) "\nA\n#vertexShader\nB\n".toList ['A']
      [[]] [vertexMarker, ['B']] rfl (by decide) (by decide) (by decide)).1.1⟩

/-- C3 fails as stated: the text `"A\n"` has no marker line, and `Parse` stops at the
`MissingStageMarker` check instead of returning an empty map. -/
theorem Parse_no_marker_counterexample :
    getlines "A\n".toList = [['A']] ∧ ¬ isStageMarker ['A'] ∧
    (GlShader.fresh 0).Parse "A\n".toList = .fatal MissingStageMarker (GlShader.fresh 0) := by
  decide

/-- C3 as amended: on a text without any marker line, `Parse` (from an empty map) returns
with the map still empty when the text has no line at all, and stops at the
`MissingStageMarker` check, the map still empty, as soon as the text has a line. -/
theorem Parse_no_marker (self : GlShader) (text : StdString) (hfresh : self.m_sources = [])
    (hnone : ∀ l ∈ getlines text, ¬ isStageMarker l) :
    (text = [] → self.Parse text = .done self ∧ self.m_sources = []) ∧
    (text ≠ [] → self.Parse text = .fatal MissingStageMarker self ∧
      (Outcome.state (self.Parse text)).m_sources = []) := by
  constructor
  · intro h
    subst h
    refine ⟨?_, hfresh⟩
    simp only [GlShader.Parse, getlines, Parse.loop]
  · intro h
    have hne := getlines_ne_nil text h
    cases hg : getlines text with
    | nil => exact absurd hg hne
    | cons x xs =>
      have hx : ¬ isStageMarker x := hnone x (by rw [hg]; exact List.mem_cons_self _ _)
      have hmain : self.Parse text = .fatal MissingStageMarker self := by
        simp only [GlShader.Parse, hg, hfresh, Parse_loop_fatal_of_content_first [] x xs hx]
        rw [← hfresh, GlShader_with_sources_self]
      refine ⟨hmain, ?_⟩
      rw [hmain]; exact hfresh

theorem Parse_no_marker_witness :
    (GlShader.fresh 0).m_sources = [] ∧
    (∀ l ∈ getlines "void main()\n".toList, ¬ isStageMarker l) ∧
    (GlShader.fresh 0).Parse "void main()\n".toList
      = .fatal MissingStageMarker (GlShader.fresh 0) :=
  ⟨rfl, by decide,
    ((Parse_no_marker (GlShader.fresh 0) "void main()\n".toList rfl (by decide)).2 (by decide)).1⟩

/-! ## Source validation -/

/-- When the map has an entry whose source is empty and every entry
before it is not, `Init` stops in its first loop, the object and the world untouched. -/
theorem Init_fatal_of_validate (tc : Toolchain) (gl : GlDevice) (self : GlShader) (w : World)
    (e : Fatal) (h : Init.validate self.m_sources = some e) :
    GlShader.Init tc gl self w = .fatal e (self, w) := by
  simp only [GlShader.Init, h]

/-- C4: the claim does not hold of the code. With an empty source map the first loop of
`Init` has nothing to visit: for every compiler, driver and world `Init` runs to its end,
having asked for the cache directory twice and linked and validated a program without any
stage. With the vertex stage alone in the map (the text `"#vertexShader\nA\n"`), nothing
asks for a fragment source either: `Init` finishes after three compilations. -/
theorem Init_empty_sources_not_rejected (tc : Toolchain) (gl : GlDevice) (self : GlShader)
    (w : World) :
    GlShader.Init tc gl { self with m_sources := [] } w
      = .done ({ self with m_sources := [], m_vulcanSPIRV := [], m_openglSPIRV := [] },
          ((Utils.CreateCacheDirectoryIfNeeded (Utils.CreateCacheDirectoryIfNeeded w)).log
            (.glLinkProgram self.m_glProgram)).log (.glValidateProgram self.m_glProgram))
    ∧ (GlShader.Init stubToolchain stubDevice
        { GlShader.fresh 7 with
          m_name := "s".toList, m_sources := [(GL_VERTEX_SHADER, "A\n".toList)] }
        emptyWorld).isDone = true
    ∧ compilerCalls (GlShader.Init stubToolchain stubDevice
        { GlShader.fresh 7 with
          m_name := "s".toList, m_sources := [(GL_VERTEX_SHADER, "A\n".toList)] }
        emptyWorld).state.2.trace = 3 := by
  refine ⟨?_, ?_, ?_⟩
  · simp [GlShader.Init, Init.validate, GlShader.GetVulcanBinaries, GlShader.GetOpenGlBinaries,
      resolveBinaries.loop, GlShader.ComposeGlProgram, ComposeGlProgram.loop, deleteShaders,
      GlShader.CreateDesctiptorIfNeeded]
  · decide
  · decide

/-- C5 fails as stated: with an empty name the run stops at the assertion on the name, which
is no `MissingSource` of the fragment stage, although the fragment source is empty. -/
theorem FromSource_empty_fragment_counterexample :
    GlShader.FromSourceThenInit stubToolchain stubDevice (GlShader.fresh 7) emptyWorld
        [] "A".toList []
      = .fatal (.assertion nameNotProvided) (GlShader.fresh 7, emptyWorld)
    ∧ ¬ MissingSource GL_FRAGMENT_SHADER (.assertion nameNotProvided) := by
  decide

/-- C5 as amended: for every name that is not empty, `FromSource` followed by `Init` stops
with `MissingSource` of the fragment stage when the vertex source is not empty and the
fragment source is, and with `MissingSource` of the vertex stage when the vertex source is
empty; in both cases the object and the world are as before the call, so that no
compiler was invoked and no cache file opened. -/
theorem FromSource_empty_source_fatal (tc : Toolchain) (gl : GlDevice) (self : GlShader)
    (w : World) (name vertexSrc fragmentSrc : StdString) (hname : name ≠ []) :
    (vertexSrc ≠ [] →
      GlShader.FromSourceThenInit tc gl self w name vertexSrc []
        = .fatal (.assertion fragmentSourceNotProvided) (self, w)
      ∧ MissingSource GL_FRAGMENT_SHADER (.assertion fragmentSourceNotProvided))
    ∧ GlShader.FromSourceThenInit tc gl self w name [] fragmentSrc
        = .fatal (.assertion vertexSourceNotProvided) (self, w)
    ∧ MissingSource GL_VERTEX_SHADER (.assertion vertexSourceNotProvided) := by
  refine ⟨?_, ?_, ?_⟩
  · intro hv
    refine ⟨?_, Or.inr ⟨rfl, Or.inl rfl⟩⟩
    simp [GlShader.FromSourceThenInit, GlShader.FromSource, hname, hv]
  · simp [GlShader.FromSourceThenInit, GlShader.FromSource, hname]
  · exact Or.inl ⟨rfl, Or.inl rfl⟩

theorem FromSource_empty_source_fatal_witness :
    "s".toList ≠ [] ∧ "A".toList ≠ [] ∧
    GlShader.FromSourceThenInit stubToolchain stubDevice (GlShader.fresh 7) emptyWorld
        "s".toList "A".toList []
      = .fatal (.assertion fragmentSourceNotProvided) (GlShader.fresh 7, emptyWorld) :=
  ⟨by decide, by decide,
    ((FromSource_empty_source_fatal stubToolchain stubDevice (GlShader.fresh 7) emptyWorld
      "s".toList "A".toList [] (by decide)).1 (by decide)).1⟩

/-! ## Facts about the file system -/

theorem find_filter_ne (l : List (Path × Node)) (p q : Path) (h : q ≠ p) :
    (l.filter (fun e => decide (e.1 ≠ p))).find? (fun e => decide (e.1 = q))
      = l.find? (fun e => decide (e.1 = q)) := by
  induction l with
  | nil => rfl
  | cons e rest ih =>
    rw [List.filter_cons]
    by_cases he : e.1 = p
    · have h1 : decide (e.1 ≠ p) = false := by simp [he]
      have h2 : decide (e.1 = q) = false := by
        simp only [decide_eq_false_iff_not]
        exact fun x => h (x.symm.trans he)
      simp only [h1, Bool.false_eq_true, if_false, ih, List.find?_cons, h2]
    · have h1 : decide (e.1 ≠ p) = true := by simp [he]
      simp only [h1, if_true, List.find?_cons, ih]

theorem Disk_node_store (d : Disk) (p q : Path) (bytes : List Nat) :
    (d.store p bytes).node q = if q = p then some (.file bytes) else d.node q := by
  by_cases h : q = p
  · subst h
    simp [Disk.node, Disk.store, List.find?]
  · have h2 : decide (p = q) = false := by
      simp only [decide_eq_false_iff_not]
      exact fun e => h e.symm
    simp only [Disk.node, Disk.store, List.find?_cons, h2, if_neg h, find_filter_ne _ p q h]

theorem Disk_content_store (d : Disk) (p q : Path) (bytes : List Nat) :
    (d.store p bytes).content q = if q = p then some bytes else d.content q := by
  unfold Disk.content
  rw [Disk_node_store]
  by_cases h : q = p <;> simp [h]

theorem Disk_node_create_directories (d : Disk) (p q : Path) :
    (d.create_directories p).node q = if q = p then some .directory else d.node q := by
  by_cases h : q = p
  · subst h
    simp [Disk.node, Disk.create_directories, List.find?]
  · have h2 : decide (p = q) = false := by
      simp only [decide_eq_false_iff_not]
      exact fun e => h e.symm
    simp only [Disk.node, Disk.create_directories, List.find?_cons, h2, if_neg h,
      find_filter_ne _ p q h]

/-! ## Facts about binary files -/

theorem bytesToWords_wordToBytes (w : Nat) (rest : List Nat) (h : w < 4294967296) :
    bytesToWords (wordToBytes w ++ rest) = w :: bytesToWords rest := by
  simp only [wordToBytes, List.cons_append, List.nil_append, bytesToWords, Nat.mod_mod]
  congr 1
  omega

theorem bytesToWords_wordsToBytes (data : List Nat) (h : ∀ x ∈ data, x < 4294967296) :
    bytesToWords (wordsToBytes data) = data := by
  induction data with
  | nil => rfl
  | cons w ws ih =>
    rw [wordsToBytes, bytesToWords_wordToBytes w _ (h w (List.mem_cons_self _ _)),
      ih (fun x hx => h x (List.mem_cons_of_mem _ hx))]

theorem wordsToBytes_length (data : List Nat) : (wordsToBytes data).length = 4 * data.length := by
  induction data with
  | nil => rfl
  | cons w ws ih => simp [wordsToBytes, wordToBytes, ih]; omega

theorem wordsToBytes_eq_nil (data : List Nat) : wordsToBytes data = [] ↔ data = [] := by
  cases data with
  | nil => simp [wordsToBytes]
  | cons w ws => simp [wordsToBytes, wordToBytes]

theorem bytesToWords_length : ∀ (n : Nat) (bytes : List Nat), bytes.length ≤ n →
    (bytesToWords bytes).length = bytes.length / 4 := by
  intro n
  induction n using Nat.strong_induction_on with
  | _ n ih =>
    intro bytes hn
    match bytes with
    | [] => simp [bytesToWords]
    | [_] => simp [bytesToWords]
    | [_, _] => simp [bytesToWords]
    | [_, _, _] => simp [bytesToWords]
    | b0 :: b1 :: b2 :: b3 :: rest =>
      simp only [bytesToWords, List.length_cons] at hn ⊢
      rw [ih rest.length (by omega) rest (le_refl _)]
      omega

theorem vectorResize_length (v : List Nat) (n : Nat) : (vectorResize v n).length = n := by
  simp [vectorResize, List.length_take]
  omega

theorem readInto_resized (destination bytes : List Nat) :
    readInto (vectorResize destination (bytes.length / 4)) bytes = bytesToWords bytes := by
  have hlen := bytesToWords_length bytes.length bytes (le_refl _)
  unfold readInto
  rw [vectorResize_length, ← hlen, List.take_length]
  rw [List.drop_of_length_le (by rw [vectorResize_length, hlen])]
  simp

theorem World_log_disk (w : World) (e : Event) : (w.log e).disk = w.disk := rfl

theorem World_log_trace (w : World) (e : Event) : (w.log e).trace = w.trace ++ [e] := rfl

theorem Disk_store_refused (d : Disk) (p : Path) (bytes : List Nat) :
    (d.store p bytes).refused = d.refused := rfl

/-- What `SaveBinary` leaves on the disk when the stream opens. -/
theorem SaveBinary_disk (w : World) (path : Path) (data : List Nat)
    (hopen : w.disk.opensForWrite path = true) :
    (Utils.SaveBinary w path data).disk = w.disk.store path (wordsToBytes data) := by
  simp [Utils.SaveBinary, World_log_disk, hopen]

/-- What `LoadBinary` puts into the destination when the file is there, holds whole words
and the stream opens: the words its bytes fill. -/
theorem LoadBinary_value (w : World) (path : Path) (destination bytes : List Nat)
    (hcontent : w.disk.content path = some bytes) (hopen : path ∉ w.disk.refused)
    (hwhole : bytes.length % 4 = 0) :
    Utils.LoadBinary w path destination
      = (.ok (bytesToWords bytes), (w.log (.fsFileSize path)).log (.fsOpenRead path)) := by
  have hfit : bytes.length ≤ 4 * (vectorResize destination (bytes.length / 4)).length := by
    rw [vectorResize_length]; omega
  simp [Utils.LoadBinary, World_log_disk, Disk.file_size, Disk.opensForRead, hcontent, hopen,
    readInto_resized, hfit]

/-- What `LoadBinary` does when the file is there, the stream opens and the size of the file
is no multiple of four: the read runs past the destination. -/
theorem LoadBinary_overrun (w : World) (path : Path) (destination bytes : List Nat)
    (hcontent : w.disk.content path = some bytes) (hopen : path ∉ w.disk.refused)
    (hpart : bytes.length % 4 ≠ 0) :
    Utils.LoadBinary w path destination
      = (.error (.overrun path (4 * (bytes.length / 4)) bytes.length),
          (w.log (.fsFileSize path)).log (.fsOpenRead path)) := by
  have hfit : ¬ bytes.length ≤ 4 * (vectorResize destination (bytes.length / 4)).length := by
    rw [vectorResize_length]; omega
  have hfit2 : ¬ bytes.length ≤ 4 * (bytes.length / 4) := by omega
  simp only [Utils.LoadBinary, World_log_disk, Disk.file_size, Disk.opensForRead, hcontent,
    Option.isSome_some, Bool.true_and, decide_eq_true_eq, hopen, not_false_eq_true, if_true,
    if_neg hfit, vectorResize_length, if_neg hfit2]

/-- C7: for every sequence of 32-bit words, `SaveBinary` to a path whose stream opens,
followed by `LoadBinary` from the same path, gives the destination exactly the words that
were saved (whatever it held before), and the file holds the bytes of these words and
nothing else. -/
theorem SaveBinary_LoadBinary_roundtrip (w : World) (path : Path)
    (data destination : List Nat) (hopen : w.disk.opensForWrite path = true)
    (hwords : ∀ x ∈ data, x < 4294967296) :
    (Utils.LoadBinary (Utils.SaveBinary w path data) path destination).1 = .ok data
    ∧ (Utils.SaveBinary w path data).disk.content path = some (wordsToBytes data) := by
  have hdisk := SaveBinary_disk w path data hopen
  have hcontent : (Utils.SaveBinary w path data).disk.content path = some (wordsToBytes data) := by
    rw [hdisk, Disk_content_store]; simp
  have hrefused : path ∉ (Utils.SaveBinary w path data).disk.refused := by
    rw [hdisk, Disk_store_refused]
    simp only [Disk.opensForWrite, Bool.and_eq_true, decide_eq_true_eq] at hopen
    exact hopen.2
  refine ⟨?_, hcontent⟩
  rw [LoadBinary_value _ path destination _ hcontent hrefused
      (by rw [wordsToBytes_length]; omega),
    bytesToWords_wordsToBytes data hwords]

theorem SaveBinary_LoadBinary_roundtrip_witness :
    emptyWorld.disk.opensForWrite "cache/shaders/s.vertglshader".toList = true ∧
    (∀ x ∈ [119734787, 65536, 4294967295], x < 4294967296) ∧
    (Utils.LoadBinary
      (Utils.SaveBinary emptyWorld "cache/shaders/s.vertglshader".toList
        [119734787, 65536, 4294967295])
      "cache/shaders/s.vertglshader".toList [7]).1 = .ok [119734787, 65536, 4294967295] :=
  ⟨by decide, by decide,
    (SaveBinary_LoadBinary_roundtrip emptyWorld "cache/shaders/s.vertglshader".toList
      [119734787, 65536, 4294967295] [7] (by decide) (by decide)).1⟩

/-! ## Facts about the cache -/

theorem StageMap_update_update {α : Type} (m : StageMap α) (key : GLenum) (d1 d2 d3 : α)
    (f : α → α) (x : α) :
    StageMap.update (StageMap.update m key d1 f) key d2 (fun _ => x)
      = StageMap.update m key d3 (fun _ => x) := by
  induction m with
  | nil => simp [StageMap.update]
  | cons e rest ih =>
    obtain ⟨k, v⟩ := e
    by_cases hk : k = key
    · simp [StageMap.update, hk]
    · simp [StageMap.update, hk, ih]

theorem compilerCalls_append (t1 t2 : List Event) :
    compilerCalls (t1 ++ t2) = compilerCalls t1 + compilerCalls t2 := by
  simp [compilerCalls, List.filter_append]

theorem compilerCalls_log (w : World) (e : Event) :
    compilerCalls (w.log e).trace = compilerCalls w.trace + (if e.isCompile then 1 else 0) := by
  rw [World_log_trace, compilerCalls_append]
  cases h : e.isCompile <;> simp [compilerCalls, List.filter, h]

theorem CachePresent_iff (d : Disk) (p : Path) :
    CachePresent d p ↔ ∃ bytes, d.node p = some (.file bytes) ∧ bytes ≠ [] := by
  unfold CachePresent Disk.content
  constructor
  · rintro ⟨bytes, h, hne⟩
    refine ⟨bytes, ?_, hne⟩
    split at h
    · rename_i b hb
      simp only [Option.some.injEq] at h
      rw [hb, h]
    · exact absurd h (by simp)
  · rintro ⟨bytes, h, hne⟩
    exact ⟨bytes, by simp [h], hne⟩

/-- On a present artifact `HasCacheFile` answers true, after asking for existence and size. -/
theorem HasCacheFile_present (w : World) (path : Path) (h : CachePresent w.disk path) :
    Utils.HasCacheFile w path = (.ok true, (w.log (.fsExists path)).log (.fsFileSize path)) := by
  obtain ⟨bytes, hb, hne⟩ := h
  have hnode : (w.disk.node path).isSome = true := by
    unfold Disk.content at hb
    cases hn : w.disk.node path with
    | none => simp [hn] at hb
    | some n => rfl
  have hlen : bytes.length ≠ 0 := fun h0 => hne (List.length_eq_zero.mp h0)
  simp [Utils.HasCacheFile, World_log_disk, Disk.pathExists, hnode, Disk.file_size, hb, hlen]

/-- On an artifact that is not present and is no directory `HasCacheFile` answers false,
and no file is touched. -/
theorem HasCacheFile_absent (w : World) (path : Path) (h : ¬ CachePresent w.disk path)
    (hopen : w.disk.opensForWrite path = true) :
    ∃ w1, Utils.HasCacheFile w path = (.ok false, w1) ∧ w1.disk = w.disk ∧
      compilerCalls w1.trace = compilerCalls w.trace := by
  rw [CachePresent_iff] at h
  cases hn : w.disk.node path with
  | none =>
    refine ⟨w.log (.fsExists path), ?_, rfl, ?_⟩
    · simp [Utils.HasCacheFile, World_log_disk, Disk.pathExists, hn]
    · simp [compilerCalls_log, Event.isCompile]
  | some n =>
    cases n with
    | directory => simp [Disk.opensForWrite, hn] at hopen
    | file bytes =>
      have hb : bytes = [] := by
        by_contra hne
        exact h ⟨bytes, hn, hne⟩
      subst hb
      refine ⟨(w.log (.fsExists path)).log (.fsFileSize path), ?_, rfl, ?_⟩
      · simp [Utils.HasCacheFile, World_log_disk, Disk.pathExists, hn, Disk.file_size,
          Disk.content]
      · simp [compilerCalls_log, Event.isCompile]

theorem SaveBinary_trace (w : World) (path : Path) (data : List Nat) :
    (Utils.SaveBinary w path data).trace = w.trace ++ [.fsOpenWrite path] := by
  unfold Utils.SaveBinary
  simp only []
  split <;> rfl

theorem SaveBinary_refused (w : World) (path : Path) (data : List Nat) :
    (Utils.SaveBinary w path data).disk.refused = w.disk.refused := by
  unfold Utils.SaveBinary
  simp only []
  split <;> rfl

/-- On a hit on a file of whole words the loop body loads the file: no compiler call, the
disk as it was. -/
theorem resolveBinaries_body_hit (tc : Toolchain) (self : GlShader)
    (pathOf : StdString → GLenum → Except Fatal Path) (api : RenderApi)
    (m : StageMap (List Nat)) (w : World) (stage : GLenum) (source : StdString) (path : Path)
    (hpath : pathOf self.m_name stage = .ok path) (hpresent : CachePresent w.disk path)
    (hopen : path ∉ w.disk.refused) (hwhole : WholeWords w.disk path) :
    ∃ w1, resolveBinaries.body tc self pathOf api (m, w) (stage, source)
        = .done (m.update stage [] (fun _ => bytesToWords ((w.disk.content path).getD [])), w1)
      ∧ w1.disk = w.disk ∧ compilerCalls w1.trace = compilerCalls w.trace := by
  obtain ⟨bytes, hb, hne⟩ := hpresent
  have hhas := HasCacheFile_present w path ⟨bytes, hb, hne⟩
  refine ⟨(((w.log (.fsExists path)).log (.fsFileSize path)).log (.fsFileSize path)).log
    (.fsOpenRead path), ?_, rfl, ?_⟩
  · simp only [resolveBinaries.body, hpath, hhas]
    rw [LoadBinary_value _ path _ bytes (by simpa [World_log_disk] using hb)
      (by simpa [World_log_disk] using hopen)
      (by simpa [WholeWords, hb] using hwhole)]
    simp only [StageMap_update_update m stage [] [] [] id, hb, Option.getD_some]
  · simp [compilerCalls_log, Event.isCompile]

/-- On a miss the loop body compiles and, the compilation succeeding, saves the words. -/
theorem resolveBinaries_body_miss (tc : Toolchain) (self : GlShader)
    (pathOf : StdString → GLenum → Except Fatal Path) (api : RenderApi)
    (m : StageMap (List Nat)) (w : World) (stage : GLenum) (source : StdString) (path : Path)
    (kind : Nat)
    (hpath : pathOf self.m_name stage = .ok path) (habsent : ¬ CachePresent w.disk path)
    (hopen : w.disk.opensForWrite path = true)
    (hkind : Utils.GlEnumToShadercKind stage = .ok kind)
    (hstatus : (tc.CompileGlslToSpv source kind self.m_filePath
      (CompileSpirv.options api true)).status = shaderc_compilation_status_success) :
    ∃ w1, resolveBinaries.body tc self pathOf api (m, w) (stage, source)
        = .done (m.update stage [] (fun _ =>
            (tc.CompileGlslToSpv source kind self.m_filePath
              (CompileSpirv.options api true)).words.map (fun x => x % 4294967296)), w1)
      ∧ w1.disk = w.disk.store path (wordsToBytes
          ((tc.CompileGlslToSpv source kind self.m_filePath
            (CompileSpirv.options api true)).words.map (fun x => x % 4294967296)))
      ∧ compilerCalls w1.trace = compilerCalls w.trace + 1 := by
  obtain ⟨w0, hhas, hdisk, hcalls⟩ := HasCacheFile_absent w path habsent hopen
  have hopen0 : (w0.log (.compileGlslToSpv source kind self.m_filePath
      (CompileSpirv.options api true))).disk.opensForWrite path = true := by
    rw [World_log_disk, hdisk]; exact hopen
  refine ⟨Utils.SaveBinary (w0.log (.compileGlslToSpv source kind self.m_filePath
      (CompileSpirv.options api true))) path
      ((tc.CompileGlslToSpv source kind self.m_filePath
        (CompileSpirv.options api true)).words.map (fun x => x % 4294967296)), ?_, ?_, ?_⟩
  · simp only [resolveBinaries.body, hpath, hhas, GlShader.CompileSpirv, hkind, hstatus, if_true]
    simp only [StageMap_update_update m stage [] [] [] id, StageMap_find_update, if_true,
      Option.getD_some]
  · rw [SaveBinary_disk _ _ _ hopen0, World_log_disk, hdisk]
  · rw [SaveBinary_trace, compilerCalls_append, compilerCalls_log, hcalls]
    simp [compilerCalls, Event.isCompile]

/-- On a hit on a file whose size is no multiple of four the loop body ends in the overrun
of `LoadBinary`. -/
theorem resolveBinaries_body_hit_overrun (tc : Toolchain) (self : GlShader)
    (pathOf : StdString → GLenum → Except Fatal Path) (api : RenderApi)
    (m : StageMap (List Nat)) (w : World) (stage : GLenum) (source : StdString) (path : Path)
    (bytes : List Nat)
    (hpath : pathOf self.m_name stage = .ok path) (hb : w.disk.content path = some bytes)
    (hopen : path ∉ w.disk.refused) (hpart : bytes.length % 4 ≠ 0) :
    resolveBinaries.body tc self pathOf api (m, w) (stage, source)
      = .fatal (.overrun path (4 * (bytes.length / 4)) bytes.length)
          (m.update stage [] id,
            (((w.log (.fsExists path)).log (.fsFileSize path)).log (.fsFileSize path)).log
              (.fsOpenRead path)) := by
  have hne : bytes ≠ [] := by
    intro h
    rw [h] at hpart
    exact hpart rfl
  have hhas := HasCacheFile_present w path ⟨bytes, hb, hne⟩
  simp only [resolveBinaries.body, hpath, hhas]
  rw [LoadBinary_overrun _ path _ bytes (by simpa [World_log_disk] using hb)
    (by simpa [World_log_disk] using hopen) hpart]

theorem createdShaders_append (t1 t2 : List Event) :
    createdShaders (t1 ++ t2) = createdShaders t1 ++ createdShaders t2 := by
  induction t1 with
  | nil => rfl
  | cons e rest ih => cases e <;> simp [createdShaders, ih]

theorem deletedShaders_append (t1 t2 : List Event) :
    deletedShaders (t1 ++ t2) = deletedShaders t1 ++ deletedShaders t2 := by
  induction t1 with
  | nil => rfl
  | cons e rest ih => cases e <;> simp [deletedShaders, ih]

theorem deleteShaders_trace (ids : List Nat) : ∀ (w : World),
    (deleteShaders w ids).trace = w.trace ++ ids.map Event.glDeleteShader := by
  induction ids with
  | nil => intro w; simp [deleteShaders]
  | cons id rest ih => intro w; simp [deleteShaders, ih, World_log_trace]

theorem deleteShaders_disk (ids : List Nat) : ∀ (w : World),
    (deleteShaders w ids).disk = w.disk := by
  induction ids with
  | nil => intro w; rfl
  | cons id rest ih => intro w; simp [deleteShaders, ih, World_log_disk]

theorem deletedShaders_map_delete (ids : List Nat) :
    deletedShaders (ids.map Event.glDeleteShader) = ids := by
  induction ids with
  | nil => rfl
  | cons id rest ih => simp [deletedShaders, ih]

theorem createdShaders_map_delete (ids : List Nat) :
    createdShaders (ids.map Event.glDeleteShader) = [] := by
  induction ids with
  | nil => rfl
  | cons id rest ih => simp [createdShaders, ih]

/-- One iteration of the composer: it creates one shader; it either attaches it, no
deletion made, or deletes every shader created so far and stops. -/
theorem ComposeGlProgram_body_spec (gl : GlDevice) (self : GlShader) (st : ComposeLoop)
    (entry : GLenum × List Nat)
    (hkey : entry.1 = GL_VERTEX_SHADER ∨ entry.1 = GL_FRAGMENT_SHADER) :
    (∀ st1, ComposeGlProgram.body gl self st entry = .done st1 →
      ∃ body id, st1.world.trace = st.world.trace ++ body ∧ createdShaders body = [id] ∧
        deletedShaders body = [] ∧ st1.componentIds = st.componentIds ++ [id] ∧
        st1.world.disk = st.world.disk ∧ compilerCalls body = 0)
    ∧ (∀ e st1, ComposeGlProgram.body gl self st entry = .fatal e st1 →
      ∃ body id, st1.world.trace = st.world.trace ++ body
          ++ st1.componentIds.map Event.glDeleteShader ∧
        createdShaders body = [id] ∧ deletedShaders body = [] ∧
        st1.componentIds = st.componentIds ++ [id] ∧
        st1.world.disk = st.world.disk ∧ compilerCalls body = 0 ∧
        ∃ stageString mes, e = .assertion (injectionFailed stageString mes)) := by
  obtain ⟨s, hs⟩ : ∃ s, Utils.GlEnumToStageString entry.1 = .ok s := by
    rcases hkey with h | h
    · exact ⟨_, by rw [h]; rfl⟩
    · exact ⟨_, by rw [h]; rfl⟩
  constructor
  · intro st1 h
    simp only [ComposeGlProgram.body, hs] at h
    split at h
    · exact absurd h (by simp)
    · simp only [Outcome.done.injEq] at h
      subst h
      refine ⟨[.glCreateShader entry.1 (gl.glCreateShader st.world.trace entry.1),
        .glShaderBinary (gl.glCreateShader st.world.trace entry.1) entry.2,
        .glSpecializeShader (gl.glCreateShader st.world.trace entry.1),
        .glGetShaderiv (gl.glCreateShader st.world.trace entry.1) GL_COMPILE_STATUS,
        .glAttachShader self.m_glProgram (gl.glCreateShader st.world.trace entry.1)],
        gl.glCreateShader st.world.trace entry.1, ?_, rfl, rfl, rfl, rfl, rfl⟩
      simp [World_log_trace]
  · intro e st1 h
    simp only [ComposeGlProgram.body, hs] at h
    split at h
    · simp only [Outcome.fatal.injEq] at h
      obtain ⟨he, hst⟩ := h
      subst hst
      refine ⟨[.glCreateShader entry.1 (gl.glCreateShader st.world.trace entry.1),
        .glShaderBinary (gl.glCreateShader st.world.trace entry.1) entry.2,
        .glSpecializeShader (gl.glCreateShader st.world.trace entry.1),
        .glGetShaderiv (gl.glCreateShader st.world.trace entry.1) GL_COMPILE_STATUS,
        .glGetShaderiv (gl.glCreateShader st.world.trace entry.1) GL_INFO_LOG_LENGTH,
        .glGetShaderInfoLog (gl.glCreateShader st.world.trace entry.1)],
        gl.glCreateShader st.world.trace entry.1, ?_, rfl, rfl, rfl, ?_, rfl, _, _, he.symm⟩
      · simp [deleteShaders_trace, World_log_trace]
      · simp only [deleteShaders_disk, World_log_disk]
    · exact absurd h (by simp)

/-- The loop of the composer: the shaders created so far are exactly those gathered in
`componentIds`; none is deleted while the loop runs, and all of them are when it stops on a
stage that failed. -/
theorem ComposeGlProgram_loop_spec (gl : GlDevice) (self : GlShader)
    (entries : StageMap (List Nat)) :
    ∀ (st : ComposeLoop),
      (∀ entry ∈ entries, entry.1 = GL_VERTEX_SHADER ∨ entry.1 = GL_FRAGMENT_SHADER) →
      (∀ st1, ComposeGlProgram.loop gl self st entries = .done st1 →
        ∃ body, st1.world.trace = st.world.trace ++ body ∧
          st1.componentIds = st.componentIds ++ createdShaders body ∧
          deletedShaders body = [] ∧ (createdShaders body).length = entries.length ∧
          st1.world.disk = st.world.disk ∧ compilerCalls body = 0)
      ∧ (∀ e st1, ComposeGlProgram.loop gl self st entries = .fatal e st1 →
        ∃ body, st1.world.trace = st.world.trace ++ body
            ++ st1.componentIds.map Event.glDeleteShader ∧
          st1.componentIds = st.componentIds ++ createdShaders body ∧
          deletedShaders body = [] ∧ 1 ≤ (createdShaders body).length ∧
          (createdShaders body).length ≤ entries.length ∧
          st1.world.disk = st.world.disk ∧ compilerCalls body = 0 ∧
          ∃ stageString mes, e = .assertion (injectionFailed stageString mes)) := by
  induction entries with
  | nil =>
    intro st _
    constructor
    · intro st1 h
      simp only [ComposeGlProgram.loop, Outcome.done.injEq] at h
      subst h
      exact ⟨[], by simp, by simp [createdShaders], rfl, rfl, rfl, rfl⟩
    · intro e st1 h
      simp [ComposeGlProgram.loop] at h
  | cons entry rest ih =>
    intro st hkeys
    have hkey := hkeys entry (List.mem_cons_self _ _)
    have hrest : ∀ x ∈ rest, x.1 = GL_VERTEX_SHADER ∨ x.1 = GL_FRAGMENT_SHADER :=
      fun x hx => hkeys x (List.mem_cons_of_mem _ hx)
    have hb := ComposeGlProgram_body_spec gl self st entry hkey
    cases hbody : ComposeGlProgram.body gl self st entry with
    | done st0 =>
      obtain ⟨b0, id0, ht0, hc0, hd0, hi0, hdisk0, hcc0⟩ := hb.1 st0 hbody
      have hih := ih st0 hrest
      constructor
      · intro st1 h
        simp only [ComposeGlProgram.loop, hbody] at h
        obtain ⟨b1, ht1, hi1, hd1, hl1, hdisk1, hcc1⟩ := hih.1 st1 h
        refine ⟨b0 ++ b1, ?_, ?_, ?_, ?_, ?_, ?_⟩
        · rw [ht1, ht0, List.append_assoc]
        · rw [hi1, hi0, createdShaders_append, hc0, List.append_assoc]
        · rw [deletedShaders_append, hd0, hd1]; rfl
        · rw [createdShaders_append, hc0]
          simp only [List.length_append, List.length_cons, List.length_nil, hl1]
          omega
        · rw [hdisk1, hdisk0]
        · rw [compilerCalls_append, hcc0, hcc1]
      · intro e st1 h
        simp only [ComposeGlProgram.loop, hbody] at h
        obtain ⟨b1, ht1, hi1, hd1, hl1, hl2, hdisk1, hcc1, hmsg⟩ := hih.2 e st1 h
        refine ⟨b0 ++ b1, ?_, ?_, ?_, ?_, ?_, ?_, ?_, hmsg⟩
        · rw [ht1, ht0]; simp only [List.append_assoc]
        · rw [hi1, hi0, createdShaders_append, hc0, List.append_assoc]
        · rw [deletedShaders_append, hd0, hd1]; rfl
        · rw [createdShaders_append, hc0]
          simp only [List.length_append, List.length_cons, List.length_nil]
          omega
        · rw [createdShaders_append, hc0]
          simp only [List.length_append, List.length_cons, List.length_nil]
          omega
        · rw [hdisk1, hdisk0]
        · rw [compilerCalls_append, hcc0, hcc1]
    | fatal e0 st0 =>
      obtain ⟨b0, id0, ht0, hc0, hd0, hi0, hdisk0, hcc0, hmsg⟩ := hb.2 e0 st0 hbody
      constructor
      · intro st1 h
        simp [ComposeGlProgram.loop, hbody] at h
      · intro e st1 h
        simp only [ComposeGlProgram.loop, hbody, Outcome.fatal.injEq] at h
        obtain ⟨he, hst⟩ := h
        subst he hst
        refine ⟨b0, ht0, ?_, hd0, ?_, ?_, hdisk0, hcc0, hmsg⟩
        · rw [hi0, hc0]
        · rw [hc0]; simp
        · rw [hc0]; simp

/-- C9: whatever the native binaries (one per vertex or fragment stage) and whatever the
driver answers, `ComposeGlProgram` deletes each shader it created exactly once on both of
its exits. When it returns, the calls it made are: a run without any deletion that created
`ids`, one shader per stage; the link; the validation; the deletion of `ids` in order. When
it stops on a stage whose compile status is false, the calls it made are: a run without any
deletion that created `ids`, at least one and at most one per stage; the deletion of `ids`
in order; and the failure is the `StageLinkFailed` assertion. -/
theorem ComposeGlProgram_deletes_created (gl : GlDevice) (self : GlShader) (w : World)
    (hkeys : ∀ entry ∈ self.m_openglSPIRV,
      entry.1 = GL_VERTEX_SHADER ∨ entry.1 = GL_FRAGMENT_SHADER) :
    (∀ w1, GlShader.ComposeGlProgram gl self w = .done w1 →
      ∃ body ids, w1.trace = w.trace ++ body
          ++ [.glLinkProgram self.m_glProgram, .glValidateProgram self.m_glProgram]
          ++ ids.map Event.glDeleteShader ∧
        createdShaders body = ids ∧ deletedShaders body = [] ∧
        ids.length = self.m_openglSPIRV.length)
    ∧ (∀ e w1, GlShader.ComposeGlProgram gl self w = .fatal e w1 →
      ∃ body ids, w1.trace = w.trace ++ body ++ ids.map Event.glDeleteShader ∧
        createdShaders body = ids ∧ deletedShaders body = [] ∧
        1 ≤ ids.length ∧ ids.length ≤ self.m_openglSPIRV.length ∧
        ∃ stageString mes, e = .assertion (injectionFailed stageString mes)) := by
  have hloop := ComposeGlProgram_loop_spec gl self self.m_openglSPIRV
    { componentIds := [], world := w } hkeys
  constructor
  · intro w1 h
    unfold GlShader.ComposeGlProgram at h
    cases hl : ComposeGlProgram.loop gl self { componentIds := [], world := w }
        self.m_openglSPIRV with
    | fatal e st => simp [hl] at h
    | done st =>
      simp only [hl, Outcome.done.injEq] at h
      obtain ⟨body, ht, hi, hd, hlen, _, _⟩ := hloop.1 st hl
      simp only [List.nil_append] at hi
      refine ⟨body, createdShaders body, ?_, rfl, hd, hlen⟩
      rw [← h, deleteShaders_trace, World_log_trace, World_log_trace, ht, hi]
      simp
  · intro e w1 h
    unfold GlShader.ComposeGlProgram at h
    cases hl : ComposeGlProgram.loop gl self { componentIds := [], world := w }
        self.m_openglSPIRV with
    | done st => simp [hl] at h
    | fatal e0 st =>
      simp only [hl, Outcome.fatal.injEq] at h
      obtain ⟨he, hw⟩ := h
      obtain ⟨body, ht, hi, hd, hl1, hl2, _, _, hmsg⟩ := hloop.2 e0 st hl
      simp only [List.nil_append] at hi
      refine ⟨body, createdShaders body, ?_, rfl, hd, hl1, hl2, ?_⟩
      · rw [← hw, ht, hi]
      · rw [← he]; exact hmsg

theorem ComposeGlProgram_deletes_created_witness :
    (∀ entry ∈ sampleWithBinaries.m_openglSPIRV,
      entry.1 = GL_VERTEX_SHADER ∨ entry.1 = GL_FRAGMENT_SHADER)
    ∧ GlShader.ComposeGlProgram failingDevice sampleWithBinaries emptyWorld
        = .fatal (.assertion (injectionFailed "fragment".toList "bad".toList))
            (GlShader.ComposeGlProgram failingDevice sampleWithBinaries emptyWorld).state
    ∧ deletedShaders
        (GlShader.ComposeGlProgram failingDevice sampleWithBinaries emptyWorld).state.trace
        = [1, 2]
    ∧ ∃ body ids,
        (GlShader.ComposeGlProgram failingDevice sampleWithBinaries emptyWorld).state.trace
          = emptyWorld.trace ++ body ++ ids.map Event.glDeleteShader ∧
        createdShaders body = ids ∧ deletedShaders body = [] ∧
        1 ≤ ids.length ∧ ids.length ≤ sampleWithBinaries.m_openglSPIRV.length ∧
        ∃ stageString mes, Fatal.assertion (injectionFailed "fragment".toList "bad".toList)
          = .assertion (injectionFailed stageString mes) :=
  ⟨by decide, by decide, by decide,
    (ComposeGlProgram_deletes_created failingDevice sampleWithBinaries emptyWorld
      (by decide)).2 _ _ (by decide)⟩

/-! ## Facts about the loops of `Init` -/

/-- An iteration that finishes has set the entry of its stage and no other. -/
theorem resolveBinaries_body_done_update (tc : Toolchain) (self : GlShader)
    (pathOf : StdString → GLenum → Except Fatal Path) (api : RenderApi)
    (st st1 : StageMap (List Nat) × World) (entry : GLenum × StdString)
    (h : resolveBinaries.body tc self pathOf api st entry = .done st1) :
    ∃ x, st1.1 = st.1.update entry.1 [] (fun _ => x) := by
  unfold resolveBinaries.body at h
  simp only [] at h
  split at h
  · exact absurd h (by simp)
  · split at h
    · exact absurd h (by simp)
    · split at h
      · exact absurd h (by simp)
      · simp only [Outcome.done.injEq] at h
        rw [← h]
        exact ⟨_, StageMap_update_update st.1 entry.1 [] [] [] id _⟩
    · split at h
      · exact absurd h (by simp)
      · simp only [Outcome.done.injEq] at h
        rw [← h]
        exact ⟨_, StageMap_update_update st.1 entry.1 [] [] [] id _⟩

theorem StageMap_find_update_isSome {α : Type} (m : StageMap α) (key : GLenum) (dflt : α)
    (f : α → α) (stage : GLenum) :
    (StageMap.find (StageMap.update m key dflt f) stage).isSome
      = (decide (stage = key) || (StageMap.find m stage).isSome) := by
  rw [StageMap_find_update]
  by_cases h : stage = key <;> simp [h]

/-- The stages of the map a finished loop leaves: those it had and those it visited. -/
theorem resolveBinaries_loop_done_keys (tc : Toolchain) (self : GlShader)
    (pathOf : StdString → GLenum → Except Fatal Path) (api : RenderApi)
    (entries : StageMap StdString) :
    ∀ (st st1 : StageMap (List Nat) × World),
      resolveBinaries.loop tc self pathOf api st entries = .done st1 →
      ∀ stage, (StageMap.find st1.1 stage).isSome
        = ((StageMap.find st.1 stage).isSome || (StageMap.find entries stage).isSome) := by
  induction entries with
  | nil =>
    intro st st1 h stage
    simp only [resolveBinaries.loop, Outcome.done.injEq] at h
    subst h
    simp [StageMap.find]
  | cons entry rest ih =>
    intro st st1 h stage
    cases hbody : resolveBinaries.body tc self pathOf api st entry with
    | fatal e st0 => simp [resolveBinaries.loop, hbody] at h
    | done st0 =>
      simp only [resolveBinaries.loop, hbody] at h
      obtain ⟨x, hx⟩ := resolveBinaries_body_done_update tc self pathOf api st st0 entry hbody
      rw [ih st0 st1 h stage, hx, StageMap_find_update_isSome]
      obtain ⟨k, v⟩ := entry
      by_cases hk : k = stage
      · simp [StageMap.find, hk]
      · have hk2 : ¬ stage = k := fun e => hk e.symm
        simp [StageMap.find, hk, hk2]

/-- C10 fails as stated: after `Init` has finished on the sample shader, the source map
is empty, but both binary maps still hold the binaries of the two stages. -/
theorem Init_releases_state_counterexample :
    (GlShader.Init stubToolchain stubDevice sampleShader emptyWorld).isDone = true
    ∧ (GlShader.Init stubToolchain stubDevice sampleShader emptyWorld).state.1.m_sources = []
    ∧ (GlShader.Init stubToolchain stubDevice sampleShader emptyWorld).state.1.m_vulcanSPIRV
      = [(GL_VERTEX_SHADER, [119734787, 65536, 0, 1, 0]),
         (GL_FRAGMENT_SHADER, [119734787, 65536, 0, 1, 10])]
    ∧ (GlShader.Init stubToolchain stubDevice sampleShader emptyWorld).state.1.m_openglSPIRV
      = [(GL_VERTEX_SHADER, [119734787, 65536, 0, 1, 1]),
         (GL_FRAGMENT_SHADER, [119734787, 65536, 0, 1, 11])] := by
  decide

theorem GetVulcanBinaries_done (tc : Toolchain) (self s1 : GlShader) (w w1 : World)
    (h : GlShader.GetVulcanBinaries tc self w = .done (s1, w1)) :
    ∃ m, resolveBinaries.loop tc self Utils.GetVulcanCachePath .Vulcan ([], w) self.m_sources
        = .done (m, w1) ∧ s1 = { self with m_vulcanSPIRV := m } := by
  unfold GlShader.GetVulcanBinaries at h
  cases hl : resolveBinaries.loop tc self Utils.GetVulcanCachePath .Vulcan ([], w)
      self.m_sources with
  | fatal e st => simp [hl] at h
  | done st =>
    obtain ⟨m, w2⟩ := st
    simp only [hl, Outcome.done.injEq, Prod.mk.injEq] at h
    exact ⟨m, by rw [h.2], h.1.symm⟩

theorem GetOpenGlBinaries_done (tc : Toolchain) (self s1 : GlShader) (w w1 : World)
    (h : GlShader.GetOpenGlBinaries tc self w = .done (s1, w1)) :
    ∃ m, resolveBinaries.loop tc self Utils.GetOpenGlCachePath .OpenGl
          ([], Utils.CreateCacheDirectoryIfNeeded w) self.m_sources
        = .done (m, w1) ∧ s1 = { self with m_openglSPIRV := m } := by
  unfold GlShader.GetOpenGlBinaries at h
  cases hl : resolveBinaries.loop tc self Utils.GetOpenGlCachePath .OpenGl
      ([], Utils.CreateCacheDirectoryIfNeeded w) self.m_sources with
  | fatal e st => simp [hl] at h
  | done st =>
    obtain ⟨m, w2⟩ := st
    simp only [hl, Outcome.done.injEq, Prod.mk.injEq] at h
    exact ⟨m, by rw [h.2], h.1.symm⟩

/-- The steps of a run of `Init` that finished. -/
theorem Init_done (tc : Toolchain) (gl : GlDevice) (self s1 : GlShader) (w w1 : World)
    (h : GlShader.Init tc gl self w = .done (s1, w1)) :
    Init.validate self.m_sources = none ∧
    ∃ sv wv sg wg wc,
      GlShader.GetVulcanBinaries tc self (Utils.CreateCacheDirectoryIfNeeded w) = .done (sv, wv)
      ∧ GlShader.GetOpenGlBinaries tc sv wv = .done (sg, wg)
      ∧ GlShader.ComposeGlProgram gl sg wg = .done wc
      ∧ GlShader.CreateDesctiptorIfNeeded tc sg wc sg.m_sources = .done w1
      ∧ s1 = { sg with m_sources := [] } := by
  unfold GlShader.Init at h
  cases hval : Init.validate self.m_sources with
  | some e => simp [hval] at h
  | none =>
    refine ⟨rfl, ?_⟩
    simp only [hval] at h
    cases hv : GlShader.GetVulcanBinaries tc self (Utils.CreateCacheDirectoryIfNeeded w) with
    | fatal e st => simp [hv] at h
    | done st =>
      obtain ⟨sv, wv⟩ := st
      simp only [hv] at h
      cases hg : GlShader.GetOpenGlBinaries tc sv wv with
      | fatal e st => simp [hg] at h
      | done st =>
        obtain ⟨sg, wg⟩ := st
        simp only [hg] at h
        cases hc : GlShader.ComposeGlProgram gl sg wg with
        | fatal e st => simp [hc] at h
        | done wc =>
          simp only [hc] at h
          cases hd : GlShader.CreateDesctiptorIfNeeded tc sg wc sg.m_sources with
          | fatal e st => simp [hd] at h
          | done wd =>
            simp only [hd, Outcome.done.injEq, Prod.mk.injEq] at h
            exact ⟨sv, wv, sg, wg, wc, rfl, hg, hc, by rw [← h.2, hd], h.1.symm⟩

/-- C10 as amended: after `Init` has finished, the source map is empty and the name, the
file path and the program handle are those of before; the portable-IR map and the
native-execution map are not cleared: each holds an entry for exactly the stages the
source map had. -/
theorem Init_releases_sources_only (tc : Toolchain) (gl : GlDevice) (self s1 : GlShader)
    (w w1 : World) (h : GlShader.Init tc gl self w = .done (s1, w1)) :
    s1.m_sources = [] ∧ s1.m_name = self.m_name ∧ s1.m_filePath = self.m_filePath
    ∧ s1.m_glProgram = self.m_glProgram
    ∧ (∀ stage, (StageMap.find s1.m_vulcanSPIRV stage).isSome
        = (StageMap.find self.m_sources stage).isSome)
    ∧ (∀ stage, (StageMap.find s1.m_openglSPIRV stage).isSome
        = (StageMap.find self.m_sources stage).isSome) := by
  obtain ⟨_, sv, wv, sg, wg, wc, hv, hg, _, _, hs1⟩ := Init_done tc gl self s1 w w1 h
  obtain ⟨mv, hlv, hsv⟩ := GetVulcanBinaries_done tc self sv _ wv hv
  obtain ⟨mg, hlg, hsg⟩ := GetOpenGlBinaries_done tc sv sg wv wg hg
  have hkv := resolveBinaries_loop_done_keys tc self _ _ _ _ _ hlv
  have hkg := resolveBinaries_loop_done_keys tc sv _ _ _ _ _ hlg
  subst hs1 hsg hsv
  refine ⟨rfl, rfl, rfl, rfl, ?_, ?_⟩
  · intro stage
    simpa [StageMap.find] using hkv stage
  · intro stage
    simpa [StageMap.find] using hkg stage

theorem Init_releases_sources_only_witness :
    GlShader.Init stubToolchain stubDevice sampleShader emptyWorld
      = .done (GlShader.Init stubToolchain stubDevice sampleShader emptyWorld).state
    ∧ (GlShader.Init stubToolchain stubDevice sampleShader emptyWorld).state.1.m_sources = []
    ∧ (StageMap.find
        (GlShader.Init stubToolchain stubDevice sampleShader emptyWorld).state.1.m_openglSPIRV
        GL_FRAGMENT_SHADER).isSome
      = (StageMap.find sampleShader.m_sources GL_FRAGMENT_SHADER).isSome :=
  ⟨by decide,
    (Init_releases_sources_only stubToolchain stubDevice sampleShader
      (GlShader.Init stubToolchain stubDevice sampleShader emptyWorld).state.1 emptyWorld
      (GlShader.Init stubToolchain stubDevice sampleShader emptyWorld).state.2
      (by decide)).1,
    (Init_releases_sources_only stubToolchain stubDevice sampleShader
      (GlShader.Init stubToolchain stubDevice sampleShader emptyWorld).state.1 emptyWorld
      (GlShader.Init stubToolchain stubDevice sampleShader emptyWorld).state.2
      (by decide)).2.2.2.2.2 GL_FRAGMENT_SHADER⟩

/-! ## Facts about two runs against one cache -/

theorem Disk_Preserved_refl (d : Disk) : Disk.Preserved d d := ⟨rfl, fun _ _ => rfl⟩

theorem CachePresent_of_content_eq (d d1 : Disk) (p : Path) (h : d1.content p = d.content p)
    (hp : CachePresent d p) : CachePresent d1 p := by
  obtain ⟨bytes, hb, hne⟩ := hp
  exact ⟨bytes, by rw [h, hb], hne⟩

theorem Disk_Preserved_trans (d d1 d2 : Disk) (h1 : Disk.Preserved d d1)
    (h2 : Disk.Preserved d1 d2) : Disk.Preserved d d2 := by
  refine ⟨by rw [h2.1, h1.1], ?_⟩
  intro p hp
  rw [h2.2 p (CachePresent_of_content_eq d d1 p (h1.2 p hp) hp), h1.2 p hp]

theorem Disk_Preserved_present (d d1 : Disk) (p : Path) (h : Disk.Preserved d d1)
    (hp : CachePresent d p) : CachePresent d1 p :=
  CachePresent_of_content_eq d d1 p (h.2 p hp) hp

theorem Disk_Preserved_loadable (d d1 : Disk) (p : Path) (h : Disk.Preserved d d1)
    (hp : CacheLoadable d p) : CacheLoadable d1 p := by
  refine ⟨Disk_Preserved_present d d1 p h hp.1, ?_⟩
  have hw := hp.2
  unfold WholeWords at hw ⊢
  rw [h.2 p hp.1]
  exact hw

theorem Disk_Preserved_of_eq (d d1 : Disk) (h : d1 = d) : Disk.Preserved d d1 := by
  subst h; exact Disk_Preserved_refl _

/-- Storing bytes at an artifact that is not present keeps what was present. -/
theorem Disk_Preserved_store (d : Disk) (p : Path) (bytes : List Nat)
    (h : ¬ CachePresent d p) : Disk.Preserved d (d.store p bytes) := by
  refine ⟨rfl, ?_⟩
  intro q hq
  rw [Disk_content_store]
  by_cases hqp : q = p
  · subst hqp; exact absurd hq h
  · simp [hqp]

theorem CreateCacheDirectoryIfNeeded_content (w : World) (q : Path) :
    (Utils.CreateCacheDirectoryIfNeeded w).disk.content q = w.disk.content q := by
  unfold Utils.CreateCacheDirectoryIfNeeded
  simp only [World_log_disk]
  split
  · rfl
  · rename_i hex
    simp only [Disk.content, Disk_node_create_directories]
    by_cases hq : q = Utils.GetCacheDirectory
    · subst hq
      simp only [Disk.pathExists, Bool.not_eq_true, Option.not_isSome,
        Option.isNone_iff_eq_none, World_log_disk] at hex
      simp [hex]
    · simp [hq, World_log_disk]

theorem CreateCacheDirectoryIfNeeded_refused (w : World) :
    (Utils.CreateCacheDirectoryIfNeeded w).disk.refused = w.disk.refused := by
  unfold Utils.CreateCacheDirectoryIfNeeded
  simp only [World_log_disk]
  split <;> rfl

theorem CreateCacheDirectoryIfNeeded_preserved (w : World) :
    Disk.Preserved w.disk (Utils.CreateCacheDirectoryIfNeeded w).disk :=
  ⟨CreateCacheDirectoryIfNeeded_refused w, fun p _ => CreateCacheDirectoryIfNeeded_content w p⟩

theorem CreateCacheDirectoryIfNeeded_calls (w : World) :
    compilerCalls (Utils.CreateCacheDirectoryIfNeeded w).trace = compilerCalls w.trace := by
  unfold Utils.CreateCacheDirectoryIfNeeded
  simp only []
  split
  · simp [compilerCalls_log, Event.isCompile]
  · show compilerCalls ((w.log _).log _).trace = _
    simp [compilerCalls_log, Event.isCompile]

theorem CachePresent_congr (d d1 : Disk) (p : Path) (h : d1.content p = d.content p) :
    CachePresent d1 p ↔ CachePresent d p :=
  ⟨CachePresent_of_content_eq d1 d p h.symm, CachePresent_of_content_eq d d1 p h⟩

theorem map_mod_lt (ws : List Nat) : ∀ x ∈ ws.map (fun x => x % 4294967296), x < 4294967296 := by
  intro x hx
  simp only [List.mem_map] at hx
  obtain ⟨y, _, hy⟩ := hx
  omega

theorem resolveBinaries_body_done_miss (tc : Toolchain) (self : GlShader)
    (pathOf : StdString → GLenum → Except Fatal Path) (api : RenderApi)
    (m m1 : StageMap (List Nat)) (w w1 : World) (stage : GLenum) (source : StdString)
    (path : Path) (hout : tc.NonEmptyOutput)
    (hpath : pathOf self.m_name stage = .ok path) (habsent : ¬ CachePresent w.disk path)
    (hopen : w.disk.opensForWrite path = true)
    (h : resolveBinaries.body tc self pathOf api (m, w) (stage, source) = .done (m1, w1)) :
    Disk.Preserved w.disk w1.disk ∧ CacheLoadable w1.disk path ∧
      m1 = m.update stage [] (fun _ => bytesToWords ((w1.disk.content path).getD [])) := by
  obtain ⟨w0, hhas, hdisk0, _⟩ := HasCacheFile_absent w path habsent hopen
  cases hkind : Utils.GlEnumToShadercKind stage with
  | error e =>
    simp [resolveBinaries.body, hpath, hhas, GlShader.CompileSpirv, hkind] at h
  | ok kind =>
    by_cases hstatus : (tc.CompileGlslToSpv source kind self.m_filePath
        (CompileSpirv.options api true)).status = shaderc_compilation_status_success
    · obtain ⟨w2, hrun, hdisk, _⟩ := resolveBinaries_body_miss tc self pathOf api m w stage
        source path kind hpath habsent hopen hkind hstatus
      rw [hrun] at h
      simp only [Outcome.done.injEq, Prod.mk.injEq] at h
      obtain ⟨hm, hw⟩ := h
      subst hw
      have hwords := hout.1 _ _ _ _ hstatus
      have hcontent : w2.disk.content path = some (wordsToBytes
          ((tc.CompileGlslToSpv source kind self.m_filePath
            (CompileSpirv.options api true)).words.map (fun x => x % 4294967296))) := by
        rw [hdisk, Disk_content_store]; simp
      refine ⟨?_, ⟨⟨_, hcontent, ?_⟩, ?_⟩, ?_⟩
      · rw [hdisk]; exact Disk_Preserved_store _ _ _ habsent
      · rw [Ne, wordsToBytes_eq_nil, List.map_eq_nil_iff]
        exact hwords
      · unfold WholeWords
        rw [hcontent, Option.getD_some, wordsToBytes_length]
        exact Nat.mul_mod_right 4 _
      · rw [← hm, hcontent, Option.getD_some, bytesToWords_wordsToBytes _ (map_mod_lt _)]
    · simp [resolveBinaries.body, hpath, hhas, GlShader.CompileSpirv, hkind, hstatus] at h

/-- An iteration of the binaries loop that finishes, with every stream opening and a compiler
that gives no empty result: the artifact of the stage is present afterwards and holds whole
words, the stage binary is the words of the artifact, and what was present before has kept
its bytes. -/
theorem resolveBinaries_body_done (tc : Toolchain) (self : GlShader)
    (pathOf : StdString → GLenum → Except Fatal Path) (api : RenderApi)
    (m m1 : StageMap (List Nat)) (w w1 : World) (entry : GLenum × StdString)
    (hout : tc.NonEmptyOutput) (hopen : w.disk.refused = [])
    (h : resolveBinaries.body tc self pathOf api (m, w) entry = .done (m1, w1)) :
    ∃ path, pathOf self.m_name entry.1 = .ok path ∧ Disk.Preserved w.disk w1.disk ∧
      CacheLoadable w1.disk path ∧
      m1 = m.update entry.1 [] (fun _ => bytesToWords ((w1.disk.content path).getD [])) := by
  obtain ⟨stage, source⟩ := entry
  cases hpath : pathOf self.m_name stage with
  | error e => simp [resolveBinaries.body, hpath] at h
  | ok path =>
    refine ⟨path, rfl, ?_⟩
    by_cases hp : CachePresent w.disk path
    · by_cases hwhole : WholeWords w.disk path
      · obtain ⟨w2, hrun, hdisk, _⟩ := resolveBinaries_body_hit tc self pathOf api m w stage
          source path hpath hp (by rw [hopen]; simp) hwhole
        rw [hrun] at h
        simp only [Outcome.done.injEq, Prod.mk.injEq] at h
        obtain ⟨hm, hw⟩ := h
        subst hw
        refine ⟨Disk_Preserved_of_eq _ _ hdisk, ?_, ?_⟩
        · rw [hdisk]; exact ⟨hp, hwhole⟩
        · rw [← hm, hdisk]
      · obtain ⟨bytes, hb, _⟩ := hp
        rw [resolveBinaries_body_hit_overrun tc self pathOf api m w stage source path bytes
          hpath hb (by rw [hopen]; simp) (by simpa [WholeWords, hb] using hwhole)] at h
        exact absurd h (by simp)
    · cases hn : w.disk.node path with
      | some n =>
        cases n with
        | directory =>
          simp [resolveBinaries.body, hpath, Utils.HasCacheFile, World_log_disk,
            Disk.pathExists, Disk.file_size, Disk.content, hn] at h
        | file bytes =>
          exact resolveBinaries_body_done_miss tc self pathOf api m m1 w w1 stage source path
            hout hpath hp (by simp [Disk.opensForWrite, hn, hopen]) h
      | none =>
        exact resolveBinaries_body_done_miss tc self pathOf api m m1 w w1 stage source path
          hout hpath hp (by simp [Disk.opensForWrite, hn, hopen]) h

theorem cachedWords_ok (pathOf : StdString → GLenum → Except Fatal Path) (name : StdString)
    (d : Disk) (stage : GLenum) (path : Path) (h : pathOf name stage = .ok path) :
    cachedWords pathOf name d stage = bytesToWords ((d.content path).getD []) := by
  simp [cachedWords, h]

/-- First run of the binaries loop: what was present is kept, the artifact of every stage
visited is present at the end and holds whole words, and the map is the one read back from
any later disk that keeps what the end disk holds. -/
theorem resolveBinaries_loop_done (tc : Toolchain) (self : GlShader)
    (pathOf : StdString → GLenum → Except Fatal Path) (api : RenderApi)
    (hout : tc.NonEmptyOutput) (entries : StageMap StdString) :
    ∀ (m m1 : StageMap (List Nat)) (w w1 : World), w.disk.refused = [] →
      resolveBinaries.loop tc self pathOf api (m, w) entries = .done (m1, w1) →
      Disk.Preserved w.disk w1.disk
      ∧ (∀ entry ∈ entries, ∃ path, pathOf self.m_name entry.1 = .ok path ∧
          CacheLoadable w1.disk path)
      ∧ ∀ d, Disk.Preserved w1.disk d → m1 = assignCached pathOf self.m_name d entries m := by
  induction entries with
  | nil =>
    intro m m1 w w1 _ h
    simp only [resolveBinaries.loop, Outcome.done.injEq, Prod.mk.injEq] at h
    obtain ⟨hm, hw⟩ := h
    subst hm hw
    exact ⟨Disk_Preserved_refl _, by simp, fun _ _ => rfl⟩
  | cons entry rest ih =>
    intro m m1 w w1 hopen h
    cases hbody : resolveBinaries.body tc self pathOf api (m, w) entry with
    | fatal e st => simp [resolveBinaries.loop, hbody] at h
    | done st =>
      obtain ⟨m0, w0⟩ := st
      simp only [resolveBinaries.loop, hbody] at h
      obtain ⟨path, hpath, hpres0, hpresent0, hm0⟩ :=
        resolveBinaries_body_done tc self pathOf api m m0 w w0 entry hout hopen hbody
      obtain ⟨hpres1, hall, hmap⟩ := ih m0 m1 w0 w1 (by rw [hpres0.1, hopen]) h
      refine ⟨Disk_Preserved_trans _ _ _ hpres0 hpres1, ?_, ?_⟩
      · intro x hx
        rcases List.mem_cons.mp hx with hx | hx
        · subst hx
          exact ⟨path, hpath, Disk_Preserved_loadable _ _ _ hpres1 hpresent0⟩
        · exact hall x hx
      · intro d hd
        rw [hmap d hd, assignCached, cachedWords_ok pathOf _ d entry.1 path hpath, hm0,
          (Disk_Preserved_trans _ _ _ hpres1 hd).2 path hpresent0.1]

/-- Second run of the binaries loop: with the artifact of every stage present and holding
whole words, and every stream opening, the loop finishes without a compiler call and
without touching the disk, and the map is the one read from the disk. -/
theorem resolveBinaries_loop_cached (tc : Toolchain) (self : GlShader)
    (pathOf : StdString → GLenum → Except Fatal Path) (api : RenderApi)
    (entries : StageMap StdString) :
    ∀ (m : StageMap (List Nat)) (w : World), w.disk.refused = [] →
      (∀ entry ∈ entries, ∃ path, pathOf self.m_name entry.1 = .ok path ∧
        CacheLoadable w.disk path) →
      ∃ w1, resolveBinaries.loop tc self pathOf api (m, w) entries
          = .done (assignCached pathOf self.m_name w.disk entries m, w1)
        ∧ w1.disk = w.disk ∧ compilerCalls w1.trace = compilerCalls w.trace := by
  induction entries with
  | nil =>
    intro m w _ _
    exact ⟨w, rfl, rfl, rfl⟩
  | cons entry rest ih =>
    intro m w hopen hall
    obtain ⟨path, hpath, hpresent, hwhole⟩ := hall entry (List.mem_cons_self _ _)
    obtain ⟨w0, hrun, hdisk, hcalls⟩ := resolveBinaries_body_hit tc self pathOf api m w entry.1
      entry.2 path hpath hpresent (by rw [hopen]; simp) hwhole
    obtain ⟨w1, hloop, hdisk1, hcalls1⟩ := ih
      (m.update entry.1 [] (fun _ => bytesToWords ((w.disk.content path).getD []))) w0
      (by rw [hdisk, hopen])
      (fun x hx => by rw [hdisk]; exact hall x (List.mem_cons_of_mem _ hx))
    refine ⟨w1, ?_, by rw [hdisk1, hdisk], by rw [hcalls1, hcalls]⟩
    simp only [resolveBinaries.loop, hrun, hloop, assignCached,
      cachedWords_ok pathOf _ w.disk entry.1 path hpath, hdisk]

theorem StageMap_update_key {α : Type} (m : StageMap α) (key : GLenum) (dflt : α) (f : α → α) :
    ∀ x ∈ StageMap.update m key dflt f, x.1 = key ∨ ∃ y ∈ m, y.1 = x.1 := by
  induction m with
  | nil =>
    intro x hx
    simp only [StageMap.update, List.mem_singleton] at hx
    exact Or.inl (by rw [hx])
  | cons e rest ih =>
    obtain ⟨k, v⟩ := e
    intro x hx
    by_cases hk : k = key
    · simp only [StageMap.update, hk, if_true, List.mem_cons] at hx
      rcases hx with hx | hx
      · exact Or.inl (by rw [hx])
      · exact Or.inr ⟨x, List.mem_cons_of_mem _ hx, rfl⟩
    · simp only [StageMap.update, hk, if_false, List.mem_cons] at hx
      rcases hx with hx | hx
      · exact Or.inr ⟨(k, v), List.mem_cons_self _ _, by rw [hx]⟩
      · rcases ih x hx with h | ⟨y, hy, hyx⟩
        · exact Or.inl h
        · exact Or.inr ⟨y, List.mem_cons_of_mem _ hy, hyx⟩

theorem assignCached_key (pathOf : StdString → GLenum → Except Fatal Path) (name : StdString)
    (d : Disk) (entries : StageMap StdString) :
    ∀ (m : StageMap (List Nat)), ∀ x ∈ assignCached pathOf name d entries m,
      (∃ y ∈ m, y.1 = x.1) ∨ ∃ entry ∈ entries, entry.1 = x.1 := by
  induction entries with
  | nil => intro m x hx; exact Or.inl ⟨x, hx, rfl⟩
  | cons e rest ih =>
    intro m x hx
    rcases ih _ x hx with ⟨y, hy, hyx⟩ | ⟨y, hy, hyx⟩
    · rcases StageMap_update_key m e.1 [] _ y hy with h | ⟨z, hz, hzy⟩
      · exact Or.inr ⟨e, List.mem_cons_self _ _, by rw [← h, hyx]⟩
      · exact Or.inl ⟨z, hz, by rw [hzy, hyx]⟩
    · exact Or.inr ⟨y, List.mem_cons_of_mem _ hy, hyx⟩

theorem GetOpenGlCachePath_ok_stage (name : StdString) (stage : GLenum) (path : Path)
    (h : Utils.GetOpenGlCachePath name stage = .ok path) :
    stage = GL_VERTEX_SHADER ∨ stage = GL_FRAGMENT_SHADER := by
  by_cases hv : stage = GL_VERTEX_SHADER
  · exact Or.inl hv
  · by_cases hf : stage = GL_FRAGMENT_SHADER
    · exact Or.inr hf
    · simp [Utils.GetOpenGlCachePath, Utils.GetOpenGlCacheFileExtension, hv, hf] at h

/-- On a present descriptor the loop body of `CreateDesctiptorIfNeeded` reads it: no compiler
call, the disk as it was. -/
theorem CreateDesctiptorIfNeeded_body_hit (tc : Toolchain) (self : GlShader) (w : World)
    (stage : GLenum) (source ext : StdString)
    (hext : Utils.GetDescriptiorFileExtension stage = .ok ext)
    (hpresent : CachePresent w.disk (Path.append Utils.GetCacheDirectory (self.m_name ++ ext)))
    (hopen : w.disk.refused = []) :
    ∃ w1, CreateDesctiptorIfNeeded.body tc self w (stage, source) = .done w1
      ∧ w1.disk = w.disk ∧ compilerCalls w1.trace = compilerCalls w.trace := by
  have hhas := HasCacheFile_present w _ hpresent
  obtain ⟨bytes, hb, hne⟩ := hpresent
  refine ⟨(((((w.log (.fsExists (Path.append Utils.GetCacheDirectory (self.m_name ++ ext)))).log
      (.fsFileSize (Path.append Utils.GetCacheDirectory (self.m_name ++ ext)))).log
      (.fsOpenRead (Path.append Utils.GetCacheDirectory (self.m_name ++ ext)))).log
      (.fsFileSize (Path.append Utils.GetCacheDirectory (self.m_name ++ ext)))).log
      (.coreTrace (bytesString (bytes.take bytes.length)))), ?_, rfl, ?_⟩
  · simp only [CreateDesctiptorIfNeeded.body, hext, hhas, World_log_disk, Disk.opensForRead,
      hb, hopen, Disk.file_size]
    simp
  · simp [compilerCalls_log, Event.isCompile]

/-- An iteration of the descriptor loop that finishes, with every stream opening and a
reflection compiler that gives no empty text: the descriptor of the stage is present
afterwards, and what was present before has kept its bytes. -/
theorem CreateDesctiptorIfNeeded_body_done (tc : Toolchain) (self : GlShader) (w w1 : World)
    (entry : GLenum × StdString) (hout : tc.NonEmptyOutput) (hopen : w.disk.refused = [])
    (h : CreateDesctiptorIfNeeded.body tc self w entry = .done w1) :
    ∃ ext, Utils.GetDescriptiorFileExtension entry.1 = .ok ext ∧ Disk.Preserved w.disk w1.disk ∧
      CachePresent w1.disk (Path.append Utils.GetCacheDirectory (self.m_name ++ ext)) := by
  obtain ⟨stage, source⟩ := entry
  cases hext : Utils.GetDescriptiorFileExtension stage with
  | error e => simp [CreateDesctiptorIfNeeded.body, hext] at h
  | ok ext =>
    refine ⟨ext, rfl, ?_⟩
    by_cases hp : CachePresent w.disk (Path.append Utils.GetCacheDirectory (self.m_name ++ ext))
    · obtain ⟨w2, hrun, hdisk, _⟩ :=
        CreateDesctiptorIfNeeded_body_hit tc self w stage source ext hext hp hopen
      rw [hrun] at h
      simp only [Outcome.done.injEq] at h
      subst h
      exact ⟨Disk_Preserved_of_eq _ _ hdisk, by rw [hdisk]; exact hp⟩
    · have hwrite : w.disk.opensForWrite
          (Path.append Utils.GetCacheDirectory (self.m_name ++ ext)) = true := by
        cases hn : w.disk.node (Path.append Utils.GetCacheDirectory (self.m_name ++ ext)) with
        | none => simp [Disk.opensForWrite, hn, hopen]
        | some n =>
          cases n with
          | file bytes => simp [Disk.opensForWrite, hn, hopen]
          | directory =>
            simp [CreateDesctiptorIfNeeded.body, hext, Utils.HasCacheFile, World_log_disk,
              Disk.pathExists, Disk.file_size, Disk.content, hn] at h
      obtain ⟨w0, hhas, hdisk0, _⟩ := HasCacheFile_absent w _ hp hwrite
      cases hkind : Utils.GlEnumToShadercKind stage with
      | error e =>
        simp [CreateDesctiptorIfNeeded.body, hext, hhas, GlShader.CompileSpirv, hkind] at h
      | ok kind =>
        by_cases hstatus : (tc.CompileGlslToSpv source kind self.m_filePath
            (CompileSpirv.options .Vulcan false)).status = shaderc_compilation_status_success
        · simp only [CreateDesctiptorIfNeeded.body, hext, hhas, GlShader.CompileSpirv, hkind,
            hstatus, if_true, World_log_disk, hdisk0, hwrite, Outcome.done.injEq] at h
          subst h
          simp only [World_log_disk]
          refine ⟨Disk_Preserved_store _ _ _ hp,
            ⟨stringBytes (tc.reflectionCompile
              ((tc.CompileGlslToSpv source kind self.m_filePath
                (CompileSpirv.options .Vulcan false)).words.map (fun x => x % 4294967296))),
              ?_, ?_⟩⟩
          · rw [Disk_content_store]; simp
          · simp only [stringBytes, Ne, List.map_eq_nil_iff]
            exact hout.2 _
        · simp [CreateDesctiptorIfNeeded.body, hext, hhas, GlShader.CompileSpirv, hkind,
            hstatus] at h

/-- First run of the descriptor loop. -/
theorem CreateDesctiptorIfNeeded_done (tc : Toolchain) (self : GlShader)
    (hout : tc.NonEmptyOutput) (entries : StageMap StdString) :
    ∀ (w w1 : World), w.disk.refused = [] →
      GlShader.CreateDesctiptorIfNeeded tc self w entries = .done w1 →
      Disk.Preserved w.disk w1.disk
      ∧ ∀ entry ∈ entries, ∃ ext, Utils.GetDescriptiorFileExtension entry.1 = .ok ext ∧
          CachePresent w1.disk (Path.append Utils.GetCacheDirectory (self.m_name ++ ext)) := by
  induction entries with
  | nil =>
    intro w w1 _ h
    simp only [GlShader.CreateDesctiptorIfNeeded, Outcome.done.injEq] at h
    subst h
    exact ⟨Disk_Preserved_refl _, by simp⟩
  | cons entry rest ih =>
    intro w w1 hopen h
    cases hbody : CreateDesctiptorIfNeeded.body tc self w entry with
    | fatal e st => simp [GlShader.CreateDesctiptorIfNeeded, hbody] at h
    | done w0 =>
      simp only [GlShader.CreateDesctiptorIfNeeded, hbody] at h
      obtain ⟨ext, hext, hpres0, hpresent0⟩ :=
        CreateDesctiptorIfNeeded_body_done tc self w w0 entry hout hopen hbody
      obtain ⟨hpres1, hall⟩ := ih w0 w1 (by rw [hpres0.1, hopen]) h
      refine ⟨Disk_Preserved_trans _ _ _ hpres0 hpres1, ?_⟩
      intro x hx
      rcases List.mem_cons.mp hx with hx | hx
      · subst hx
        exact ⟨ext, hext, Disk_Preserved_present _ _ _ hpres1 hpresent0⟩
      · exact hall x hx

/-- Second run of the descriptor loop. -/
theorem CreateDesctiptorIfNeeded_cached (tc : Toolchain) (self : GlShader)
    (entries : StageMap StdString) :
    ∀ (w : World), w.disk.refused = [] →
      (∀ entry ∈ entries, ∃ ext, Utils.GetDescriptiorFileExtension entry.1 = .ok ext ∧
        CachePresent w.disk (Path.append Utils.GetCacheDirectory (self.m_name ++ ext))) →
      ∃ w1, GlShader.CreateDesctiptorIfNeeded tc self w entries = .done w1
        ∧ w1.disk = w.disk ∧ compilerCalls w1.trace = compilerCalls w.trace := by
  induction entries with
  | nil =>
    intro w _ _
    exact ⟨w, rfl, rfl, rfl⟩
  | cons entry rest ih =>
    intro w hopen hall
    obtain ⟨ext, hext, hpresent⟩ := hall entry (List.mem_cons_self _ _)
    obtain ⟨w0, hrun, hdisk, hcalls⟩ :=
      CreateDesctiptorIfNeeded_body_hit tc self w entry.1 entry.2 ext hext hpresent hopen
    obtain ⟨w1, hloop, hdisk1, hcalls1⟩ := ih w0 (by rw [hdisk, hopen])
      (fun x hx => by rw [hdisk]; exact hall x (List.mem_cons_of_mem _ hx))
    exact ⟨w1, by simp only [GlShader.CreateDesctiptorIfNeeded, hrun, hloop],
      by rw [hdisk1, hdisk], by rw [hcalls1, hcalls]⟩

/-- The composer touches neither the disk nor the compiler, and stops on nothing but a
stage that failed. -/
theorem ComposeGlProgram_frame (gl : GlDevice) (self : GlShader) (w : World)
    (hkeys : ∀ entry ∈ self.m_openglSPIRV,
      entry.1 = GL_VERTEX_SHADER ∨ entry.1 = GL_FRAGMENT_SHADER) :
    (GlShader.ComposeGlProgram gl self w).state.disk = w.disk
    ∧ compilerCalls (GlShader.ComposeGlProgram gl self w).state.trace = compilerCalls w.trace
    ∧ ∀ e w1, GlShader.ComposeGlProgram gl self w = .fatal e w1 →
        ∃ stageString mes, e = .assertion (injectionFailed stageString mes) := by
  have hloop := ComposeGlProgram_loop_spec gl self self.m_openglSPIRV
    { componentIds := [], world := w } hkeys
  unfold GlShader.ComposeGlProgram
  cases hl : ComposeGlProgram.loop gl self { componentIds := [], world := w }
      self.m_openglSPIRV with
  | done st =>
    obtain ⟨body, ht, _, _, _, hdisk, hcc⟩ := hloop.1 st hl
    refine ⟨?_, ?_, ?_⟩
    · simp only [Outcome.state, deleteShaders_disk, World_log_disk, hdisk]
    · simp only [Outcome.state, deleteShaders_trace, World_log_trace, ht, compilerCalls_append,
        hcc]
      simp [compilerCalls, Event.isCompile, List.filter_map]
    · intro e w1 h
      simp at h
  | fatal e0 st =>
    obtain ⟨body, ht, _, _, _, _, hdisk, hcc, hmsg⟩ := hloop.2 e0 st hl
    refine ⟨?_, ?_, ?_⟩
    · simp only [Outcome.state, hdisk]
    · simp only [Outcome.state, ht, compilerCalls_append, hcc]
      simp [compilerCalls, Event.isCompile, List.filter_map]
    · intro e w1 h
      simp only [Outcome.fatal.injEq] at h
      rw [← h.1]
      exact hmsg

theorem assignCached_supported_of_preserved (name : StdString) (d d1 : Disk)
    (entries : StageMap StdString)
    (h : ∀ entry ∈ entries, ∃ path, Utils.GetOpenGlCachePath name entry.1 = .ok path ∧
      CacheLoadable d path) :
    ∀ x ∈ assignCached Utils.GetOpenGlCachePath name d1 entries [],
      x.1 = GL_VERTEX_SHADER ∨ x.1 = GL_FRAGMENT_SHADER := by
  intro x hx
  rcases assignCached_key Utils.GetOpenGlCachePath name d1 entries [] x hx with
    ⟨y, hy, _⟩ | ⟨e, he, hex⟩
  · exact absurd hy (List.not_mem_nil _)
  · obtain ⟨path, hpath, _⟩ := h e he
    rw [← hex]
    exact GetOpenGlCachePath_ok_stage name e.1 path hpath

/-- A run of `Init` against a cache that holds every artifact of the shader, the binaries
in whole words: no compiler call; the native binaries are those read from the cache; the
run finishes, or stops in the composer on a stage the driver rejects. -/
theorem Init_cached (tc : Toolchain) (gl : GlDevice) (self : GlShader) (w : World)
    (hval : Init.validate self.m_sources = none) (hopen : w.disk.refused = [])
    (hV : ∀ entry ∈ self.m_sources, ∃ path,
      Utils.GetVulcanCachePath self.m_name entry.1 = .ok path ∧ CacheLoadable w.disk path)
    (hG : ∀ entry ∈ self.m_sources, ∃ path,
      Utils.GetOpenGlCachePath self.m_name entry.1 = .ok path ∧ CacheLoadable w.disk path)
    (hD : ∀ entry ∈ self.m_sources, ∃ ext,
      Utils.GetDescriptiorFileExtension entry.1 = .ok ext ∧
      CachePresent w.disk (Path.append Utils.GetCacheDirectory (self.m_name ++ ext))) :
    compilerCalls (GlShader.Init tc gl self w).state.2.trace = compilerCalls w.trace
    ∧ (∃ d, Disk.Preserved w.disk d ∧
        (GlShader.Init tc gl self w).state.1.m_openglSPIRV
          = assignCached Utils.GetOpenGlCachePath self.m_name d self.m_sources [])
    ∧ ((GlShader.Init tc gl self w).isDone = true
      ∨ ∃ stageString mes, GlShader.Init tc gl self w
          = .fatal (.assertion (injectionFailed stageString mes))
              (GlShader.Init tc gl self w).state) := by
  -- the directory, then the portable-IR binaries
  have hp0 := CreateCacheDirectoryIfNeeded_preserved w
  have hc0 := CreateCacheDirectoryIfNeeded_calls w
  obtain ⟨u1, hloopV, hdisk1, hcalls1⟩ := resolveBinaries_loop_cached tc self
    Utils.GetVulcanCachePath .Vulcan self.m_sources [] (Utils.CreateCacheDirectoryIfNeeded w)
    (by rw [hp0.1, hopen])
    (fun e he => by
      obtain ⟨p, hp, hpr⟩ := hV e he
      exact ⟨p, hp, Disk_Preserved_loadable _ _ _ hp0 hpr⟩)
  have hp1 : Disk.Preserved w.disk u1.disk := by rw [hdisk1]; exact hp0
  -- the directory again, then the native binaries
  have hp2 : Disk.Preserved w.disk (Utils.CreateCacheDirectoryIfNeeded u1).disk :=
    Disk_Preserved_trans _ _ _ hp1 (CreateCacheDirectoryIfNeeded_preserved u1)
  have hc2 := CreateCacheDirectoryIfNeeded_calls u1
  obtain ⟨u3, hloopG, hdisk3, hcalls3⟩ := resolveBinaries_loop_cached tc
    { self with m_vulcanSPIRV := (assignCached Utils.GetVulcanCachePath self.m_name
        (Utils.CreateCacheDirectoryIfNeeded w).disk self.m_sources []) }
    Utils.GetOpenGlCachePath .OpenGl self.m_sources [] (Utils.CreateCacheDirectoryIfNeeded u1)
    (by rw [hp2.1, hopen])
    (fun e he => by
      obtain ⟨p, hp, hpr⟩ := hG e he
      exact ⟨p, hp, Disk_Preserved_loadable _ _ _ hp2 hpr⟩)
  have hp3 : Disk.Preserved w.disk u3.disk := by rw [hdisk3]; exact hp2
  have hkeys := assignCached_supported_of_preserved self.m_name w.disk
    (Utils.CreateCacheDirectoryIfNeeded u1).disk self.m_sources hG
  -- the composer
  obtain ⟨hcdisk, hccalls, hcmsg⟩ := ComposeGlProgram_frame gl
    { self with
      m_vulcanSPIRV := (assignCached Utils.GetVulcanCachePath self.m_name
        (Utils.CreateCacheDirectoryIfNeeded w).disk self.m_sources [])
      m_openglSPIRV := (assignCached Utils.GetOpenGlCachePath self.m_name
        (Utils.CreateCacheDirectoryIfNeeded u1).disk self.m_sources []) } u3 hkeys
  simp only [GlShader.Init, hval, GlShader.GetVulcanBinaries, hloopV,
    GlShader.GetOpenGlBinaries, hloopG]
  cases hc : GlShader.ComposeGlProgram gl
    { self with
      m_vulcanSPIRV := (assignCached Utils.GetVulcanCachePath self.m_name
        (Utils.CreateCacheDirectoryIfNeeded w).disk self.m_sources [])
      m_openglSPIRV := (assignCached Utils.GetOpenGlCachePath self.m_name
        (Utils.CreateCacheDirectoryIfNeeded u1).disk self.m_sources []) } u3 with
  | fatal e uf =>
    rw [hc] at hcdisk hccalls
    simp only [Outcome.state] at hcdisk hccalls
    obtain ⟨s, mes, hmsg⟩ := hcmsg e uf hc
    refine ⟨?_, ⟨_, hp2, rfl⟩, Or.inr ⟨s, mes, ?_⟩⟩
    · simp only [Outcome.state]
      rw [hccalls, hcalls3, hc2, hcalls1, hc0]
    · simp only [Outcome.state, hmsg]
  | done uc =>
    rw [hc] at hcdisk hccalls
    simp only [Outcome.state] at hcdisk hccalls
    have hpc : Disk.Preserved w.disk uc.disk := by rw [hcdisk]; exact hp3
    obtain ⟨u5, hdesc, _, hcalls5⟩ := CreateDesctiptorIfNeeded_cached tc
      { self with
        m_vulcanSPIRV := (assignCached Utils.GetVulcanCachePath self.m_name
          (Utils.CreateCacheDirectoryIfNeeded w).disk self.m_sources [])
        m_openglSPIRV := (assignCached Utils.GetOpenGlCachePath self.m_name
          (Utils.CreateCacheDirectoryIfNeeded u1).disk self.m_sources []) }
      self.m_sources uc (by rw [hpc.1, hopen])
      (fun e he => by
        obtain ⟨ext, hext, hpr⟩ := hD e he
        exact ⟨ext, hext, Disk_Preserved_present _ _ _ hpc hpr⟩)
    simp only [hdesc]
    refine ⟨?_, ⟨_, hp2, rfl⟩, Or.inl rfl⟩
    simp only [Outcome.state]
    rw [hcalls5, hccalls, hcalls3, hc2, hcalls1, hc0]

/-- C8: for every shader name and stage source map, when a first run of `Init` has
finished, a second run of `Init` on the same object state against the world the first run
left invokes the compiler not once, whether it finishes or stops in the composer; the
native binaries it hands to the composer are those of the first run; and it finishes unless
the driver rejects a stage in the composer. Every stream is taken to open, and the compilers
to give no empty result. -/
theorem Init_second_run_uses_cache (tc : Toolchain) (gl1 gl2 : GlDevice) (self s1 : GlShader)
    (w w1 : World) (hout : tc.NonEmptyOutput) (hopen : w.disk.refused = [])
    (h1 : GlShader.Init tc gl1 self w = .done (s1, w1)) :
    compilerCalls (GlShader.Init tc gl2 self w1).state.2.trace = compilerCalls w1.trace
    ∧ (GlShader.Init tc gl2 self w1).state.1.m_openglSPIRV = s1.m_openglSPIRV
    ∧ ((GlShader.Init tc gl2 self w1).isDone = true
      ∨ ∃ stageString mes, GlShader.Init tc gl2 self w1
          = .fatal (.assertion (injectionFailed stageString mes))
              (GlShader.Init tc gl2 self w1).state) := by
  obtain ⟨hval, sv, wv, sg, wg, wc, hv, hg, hc, hd, hs1⟩ := Init_done tc gl1 self s1 w w1 h1
  obtain ⟨mv, hlv, hsv⟩ := GetVulcanBinaries_done tc self sv _ wv hv
  obtain ⟨mg, hlg, hsg⟩ := GetOpenGlBinaries_done tc sv sg wv wg hg
  subst hsv hsg hs1
  -- the first run: what each step leaves on the disk
  have hp0 := CreateCacheDirectoryIfNeeded_preserved w
  obtain ⟨hpv, hallV, _⟩ := resolveBinaries_loop_done tc self Utils.GetVulcanCachePath .Vulcan
    hout self.m_sources [] mv (Utils.CreateCacheDirectoryIfNeeded w) wv
    (by rw [hp0.1, hopen]) hlv
  have hopenv : wv.disk.refused = [] := by rw [hpv.1, hp0.1, hopen]
  have hp1 := CreateCacheDirectoryIfNeeded_preserved wv
  obtain ⟨hpg, hallG, hmap⟩ := resolveBinaries_loop_done tc
    { self with m_vulcanSPIRV := mv } Utils.GetOpenGlCachePath .OpenGl
    hout self.m_sources [] mg (Utils.CreateCacheDirectoryIfNeeded wv) wg
    (by rw [hp1.1, hopenv]) hlg
  have hopeng : wg.disk.refused = [] := by rw [hpg.1, hp1.1, hopenv]
  have hmg := hmap wg.disk (Disk_Preserved_refl _)
  have hkeys : ∀ entry ∈ ({ self with m_vulcanSPIRV := mv, m_openglSPIRV := mg } :
      GlShader).m_openglSPIRV, entry.1 = GL_VERTEX_SHADER ∨ entry.1 = GL_FRAGMENT_SHADER := by
    show ∀ entry ∈ mg, _
    rw [hmg]
    exact assignCached_supported_of_preserved self.m_name wg.disk wg.disk self.m_sources hallG
  have hcdisk := (ComposeGlProgram_frame gl1 _ wg hkeys).1
  rw [hc] at hcdisk
  simp only [Outcome.state] at hcdisk
  obtain ⟨hpd, hallD⟩ := CreateDesctiptorIfNeeded_done tc
    { self with m_vulcanSPIRV := mv, m_openglSPIRV := mg } hout self.m_sources wc w1
    (by rw [hcdisk, hopeng]) hd
  have hpgw : Disk.Preserved wg.disk w1.disk := by rw [← hcdisk]; exact hpd
  have hpvw : Disk.Preserved wv.disk w1.disk :=
    Disk_Preserved_trans _ _ _ (Disk_Preserved_trans _ _ _ hp1 hpg) hpgw
  -- the second run
  obtain ⟨hcalls, ⟨d, hd2, hmap2⟩, hend⟩ := Init_cached tc gl2 self w1 hval
    (by rw [hpgw.1, hopeng])
    (fun e he => by
      obtain ⟨p, hp, hpr⟩ := hallV e he
      exact ⟨p, hp, Disk_Preserved_loadable _ _ _ hpvw hpr⟩)
    (fun e he => by
      obtain ⟨p, hp, hpr⟩ := hallG e he
      exact ⟨p, hp, Disk_Preserved_loadable _ _ _ hpgw hpr⟩)
    hallD
  refine ⟨hcalls, ?_, hend⟩
  rw [hmap2]
  exact (hmap d (Disk_Preserved_trans _ _ _ hpgw hd2)).symm

theorem Init_second_run_uses_cache_witness :
    stubToolchain.NonEmptyOutput ∧ emptyWorld.disk.refused = []
    ∧ GlShader.Init stubToolchain stubDevice sampleShader emptyWorld
      = .done (GlShader.Init stubToolchain stubDevice sampleShader emptyWorld).state
    ∧ compilerCalls (GlShader.Init stubToolchain stubDevice sampleShader emptyWorld).state.2.trace
      = 6
    ∧ compilerCalls (GlShader.Init stubToolchain failingDevice sampleShader
        (GlShader.Init stubToolchain stubDevice sampleShader emptyWorld).state.2).state.2.trace
      = compilerCalls
          (GlShader.Init stubToolchain stubDevice sampleShader emptyWorld).state.2.trace
    ∧ (GlShader.Init stubToolchain failingDevice sampleShader
        (GlShader.Init stubToolchain stubDevice sampleShader emptyWorld).state.2).state.1.m_openglSPIRV
      = (GlShader.Init stubToolchain stubDevice sampleShader emptyWorld).state.1.m_openglSPIRV :=
  have hout : stubToolchain.NonEmptyOutput :=
    ⟨fun _ _ _ _ _ => List.cons_ne_nil _ _, fun _ => List.cons_ne_nil _ _⟩
  have h := Init_second_run_uses_cache stubToolchain stubDevice failingDevice sampleShader
    (GlShader.Init stubToolchain stubDevice sampleShader emptyWorld).state.1 emptyWorld
    (GlShader.Init stubToolchain stubDevice sampleShader emptyWorld).state.2 hout rfl
    (by decide)
  ⟨hout, rfl, by decide, by decide, h.1, h.2.1⟩

/-! ## Lines that look like markers -/

/-- C15 fails as stated: in `"#vertexShader\n#geometryShader\nA\n"` the line
`#geometryShader` is copied into the vertex source, the vertex stage stays current and the
next line is accepted; and in `"#vertexShader \nA\n"` it is the line with the trailing
blank itself, not the line after it, that fails the `MissingStageMarker` check. -/
theorem Parse_unrecognized_marker_counterexample :
    ¬ isStageMarker "#geometryShader".toList
    ∧ (GlShader.fresh 0).Parse "#vertexShader\n#geometryShader\nA\n".toList
      = .done { GlShader.fresh 0 with
          m_sources := [(GL_VERTEX_SHADER, "#geometryShader\nA\n".toList)] }
    ∧ ¬ isStageMarker "#vertexShader ".toList
    ∧ Parse.body { type := GL_INVALID_ENUM, m_sources := [] } "#vertexShader ".toList
      = .fatal MissingStageMarker { type := GL_INVALID_ENUM, m_sources := [] } := by
  decide

/-- C15 as amended: a line that is not exactly `#vertexShader` or `#fragmentShader`, such as
`#geometryShader` or `#vertexShader` followed by a blank, is an ordinary content line. When
no stage is current, this line itself fails the `MissingStageMarker` check and the map is
untouched; when a stage is current, the line and a newline are appended to the source of
that stage, and that stage stays current. -/
theorem Parse_unrecognized_marker_is_content (st : ParseLoop) (line : StdString)
    (hline : ¬ isStageMarker line) :
    (st.type = GL_INVALID_ENUM → Parse.body st line = .fatal MissingStageMarker st)
    ∧ (st.type ≠ GL_INVALID_ENUM →
        Parse.body st line
          = .done { type := st.type,
                    m_sources := st.m_sources.update st.type [] (fun s => s ++ (line ++ ['\n'])) })
    ∧ ¬ isStageMarker "#geometryShader".toList ∧ ¬ isStageMarker "#vertexShader ".toList := by
  have hv : ¬ line = vertexMarker := fun h => hline (Or.inl h)
  have hf : ¬ line = fragmentMarker := fun h => hline (Or.inr h)
  refine ⟨?_, ?_, by decide, by decide⟩
  · intro ht
    simp [Parse.body, hv, hf, ht, MissingStageMarker]
  · intro ht
    simp [Parse.body, hv, hf, ht]

theorem Parse_unrecognized_marker_is_content_witness :
    ¬ isStageMarker "#geometryShader".toList
    ∧ GL_VERTEX_SHADER ≠ GL_INVALID_ENUM
    ∧ Parse.body { type := GL_VERTEX_SHADER, m_sources := [] } "#geometryShader".toList
      = .done { type := GL_VERTEX_SHADER,
                m_sources := [(GL_VERTEX_SHADER, "#geometryShader\n".toList)] } :=
  ⟨by decide, by decide,
    (Parse_unrecognized_marker_is_content { type := GL_VERTEX_SHADER, m_sources := [] }
      "#geometryShader".toList (by decide)).2.1 (by decide)⟩

/-! ## The entries `Parse` creates -/

theorem StageMap_update_mem {α : Type} (m : StageMap α) (key : GLenum) (dflt : α) (f : α → α) :
    ∀ x ∈ StageMap.update m key dflt f, x ∈ m ∨ ∃ v, x = (key, f v) := by
  induction m with
  | nil =>
    intro x hx
    simp only [StageMap.update, List.mem_singleton] at hx
    exact Or.inr ⟨dflt, hx⟩
  | cons e rest ih =>
    obtain ⟨k, v⟩ := e
    intro x hx
    by_cases hk : k = key
    · simp only [StageMap.update, hk, if_true, List.mem_cons] at hx
      rcases hx with hx | hx
      · exact Or.inr ⟨v, hx⟩
      · exact Or.inl (List.mem_cons_of_mem _ hx)
    · simp only [StageMap.update, hk, if_false, List.mem_cons] at hx
      rcases hx with hx | hx
      · exact Or.inl (by rw [hx]; exact List.mem_cons_self _ _)
      · rcases ih x hx with h | h
        · exact Or.inl (List.mem_cons_of_mem _ h)
        · exact Or.inr h

theorem Parse_body_entries (st st1 : ParseLoop) (line : StdString)
    (hwf : ∀ e ∈ st.m_sources, e.2 ≠ [] ∧ e.2.getLast? = some '\n')
    (h : Parse.body st line = .done st1) :
    ∀ e ∈ st1.m_sources, e.2 ≠ [] ∧ e.2.getLast? = some '\n' := by
  unfold Parse.body at h
  split at h
  · simp only [Outcome.done.injEq] at h
    subst h
    exact hwf
  · split at h
    · simp only [Outcome.done.injEq] at h
      subst h
      exact hwf
    · simp only [] at h
      split at h
      · exact absurd h (by simp)
      · simp only [Outcome.done.injEq] at h
        subst h
        intro e he
        rcases StageMap_update_mem _ _ _ _ e he with hm | ⟨v, hv⟩
        · exact hwf e hm
        · subst hv
          refine ⟨by simp, ?_⟩
          simp [List.getLast?_append]

theorem Parse_loop_entries (lines : List StdString) :
    ∀ (st st1 : ParseLoop), (∀ e ∈ st.m_sources, e.2 ≠ [] ∧ e.2.getLast? = some '\n') →
      Parse.loop st lines = .done st1 →
      ∀ e ∈ st1.m_sources, e.2 ≠ [] ∧ e.2.getLast? = some '\n' := by
  induction lines with
  | nil =>
    intro st st1 hwf h
    simp only [Parse.loop, Outcome.done.injEq] at h
    subst h
    exact hwf
  | cons line rest ih =>
    intro st st1 hwf h
    cases hb : Parse.body st line with
    | fatal e s => simp [Parse.loop, hb] at h
    | done s =>
      simp only [Parse.loop, hb] at h
      exact ih s st1 (Parse_body_entries st s line hwf hb) h

theorem Init_validate_of_entries (m : StageMap StdString)
    (hwf : ∀ e ∈ m, e.2 ≠ [] ∧ e.2.getLast? = some '\n') : Init.validate m = none := by
  induction m with
  | nil => rfl
  | cons e rest ih =>
    obtain ⟨stage, source⟩ := e
    have hne : source ≠ [] := (hwf (stage, source) (List.mem_cons_self _ _)).1
    have hlen : ¬ source.length = 0 := fun h => hne (List.length_eq_zero.mp h)
    simp only [Init.validate, hlen, if_false]
    exact ih (fun x hx => hwf x (List.mem_cons_of_mem _ hx))

theorem Parse_done_sources (self s1 : GlShader) (text : StdString)
    (h : self.Parse text = .done s1) :
    ∃ st, Parse.loop { type := GL_INVALID_ENUM, m_sources := self.m_sources } (getlines text)
        = .done st ∧ s1.m_sources = st.m_sources := by
  unfold GlShader.Parse at h
  cases hl : Parse.loop { type := GL_INVALID_ENUM, m_sources := self.m_sources }
      (getlines text) with
  | fatal e st => simp [hl] at h
  | done st =>
    simp only [hl, Outcome.done.injEq] at h
    exact ⟨st, rfl, by rw [← h]⟩

/-- C16: when `Parse`, started on an empty map, has finished, every entry of the source map
is a non-empty text that ends in a newline; a stage has no entry exactly when no content
line was read while it was current, a marker line never creating or changing an entry (so
a marker followed by no content line before the next marker or the end of the file leaves
its stage without one); and the loop that opens `Init` finds no empty source in this map. -/
theorem Parse_entries_nonempty (self s1 : GlShader) (text : StdString)
    (hfresh : self.m_sources = []) (h : self.Parse text = .done s1) :
    (∀ e ∈ s1.m_sources, e.2 ≠ [] ∧ e.2.getLast? = some '\n')
    ∧ (∀ stage, StageMap.find s1.m_sources stage = none
        ↔ stageContent stage [] (getlines text) = [])
    ∧ (∀ (st : ParseLoop) (line : StdString), isStageMarker line →
        Parse.body st line = .done { type := markerStage line, m_sources := st.m_sources })
    ∧ Init.validate s1.m_sources = none := by
  obtain ⟨st, hloop, hsrc⟩ := Parse_done_sources self s1 text h
  rw [hfresh] at hloop
  have hwf : ∀ e ∈ s1.m_sources, e.2 ≠ [] ∧ e.2.getLast? = some '\n' := by
    rw [hsrc]
    exact Parse_loop_entries (getlines text) _ st (by simp) hloop
  refine ⟨hwf, ?_, ?_, Init_validate_of_entries _ hwf⟩
  · intro stage
    cases hg : getlines text with
    | nil =>
      rw [hg] at hloop
      simp only [Parse.loop, Outcome.done.injEq] at hloop
      rw [hsrc, ← hloop]
      simp [StageMap.find, stageContent]
    | cons first rest =>
      rw [hg] at hloop
      by_cases hfirst : isStageMarker first
      · have hbody : Parse.body { type := GL_INVALID_ENUM, m_sources := [] } first
            = .done { type := markerStage first, m_sources := [] } := by
          rcases hfirst with hm | hm
          · subst hm; rfl
          · subst hm; rfl
        have hcur : markerStage first = currentStage [first] := by
          have := currentStage_snoc [] first
          simp only [List.nil_append, if_pos hfirst] at this
          exact this.symm
        obtain ⟨m, hrun, hfind⟩ := Parse_loop_spec rest [first]
          { type := markerStage first, m_sources := [] } hcur
          (markerStage_ne_invalid first hfirst)
        simp only [Parse.loop, hbody, hrun, Outcome.done.injEq] at hloop
        rw [hsrc, ← hloop, hfind stage]
        simp only [stageContent, hfirst, not_true_eq_false, false_and, if_false,
          List.nil_append, List.nil_append, joinContent, StageMap.find]
        by_cases hc : stageContent stage [first] rest = []
        · simp [hc]
        · simp [hc]
      · rw [Parse_loop_fatal_of_content_first [] first rest hfirst] at hloop
        exact absurd hloop (by simp)
  · intro st line hm
    rcases hm with hm | hm
    · subst hm; rfl
    · subst hm; rfl

theorem Parse_entries_nonempty_witness :
    (GlShader.fresh 0).m_sources = []
    ∧ (GlShader.fresh 0).Parse "#vertexShader\nA\n#fragmentShader\n".toList
      = .done { GlShader.fresh 0 with m_sources := [(GL_VERTEX_SHADER, "A\n".toList)] }
    ∧ (∀ e ∈ ({ GlShader.fresh 0 with
          m_sources := [(GL_VERTEX_SHADER, "A\n".toList)] } : GlShader).m_sources,
        e.2 ≠ [] ∧ e.2.getLast? = some '\n')
    ∧ Init.validate ({ GlShader.fresh 0 with
          m_sources := [(GL_VERTEX_SHADER, "A\n".toList)] } : GlShader).m_sources = none :=
  ⟨rfl, by decide,
    (Parse_entries_nonempty (GlShader.fresh 0) _ "#vertexShader\nA\n#fragmentShader\n".toList
      rfl (by decide)).1,
    (Parse_entries_nonempty (GlShader.fresh 0) _ "#vertexShader\nA\n#fragmentShader\n".toList
      rfl (by decide)).2.2.2⟩

/-! ## The message of a failed compilation -/

theorem startsWith_append (part post : StdString) : startsWith (part ++ post) part = true := by
  induction part with
  | nil => cases post <;> rfl
  | cons p ps ih => simp [startsWith, ih]

theorem containsText_append (pre part post : StdString) :
    containsText (pre ++ (part ++ post)) part = true := by
  induction pre with
  | nil =>
    cases hp : part ++ post with
    | nil =>
      have hpart : part = [] := (List.append_eq_nil.mp hp).1
      subst hpart
      rfl
    | cons c cs =>
      rw [List.nil_append, containsText, ← hp, startsWith_append]
      rfl
  | cons c cs ih =>
    rw [List.cons_append, containsText, ih, Bool.or_true]

/-- C11 fails as stated: for the shader `s`, whose fragment stage the compiler rejects with
the diagnostic `bad`, the message of `CompileSpirv` is `Shader {s} failed to compile: bad`;
it is the very message of the vertex stage, and names neither stage. -/
theorem CompileSpirv_message_counterexample :
    GlShader.CompileSpirv rejectingToolchain sampleShader emptyWorld [] "B\n".toList
        GL_FRAGMENT_SHADER .Vulcan true
      = .fatal (.assertion "Shader \x7bs\x7d failed to compile: bad".toList)
          ([], emptyWorld.log (.compileGlslToSpv "B\n".toList shaderc_fragment_shader []
            (CompileSpirv.options .Vulcan true)))
    ∧ containsText "Shader \x7bs\x7d failed to compile: bad".toList "fragment".toList = false
    ∧ Utils.GlEnumToStageString GL_FRAGMENT_SHADER = .ok "fragment".toList
    ∧ failedToCompile sampleShader.m_name
        (rejectingToolchain.CompileGlslToSpv "B\n".toList shaderc_fragment_shader []
          (CompileSpirv.options .Vulcan true)).errorMessage
      = failedToCompile sampleShader.m_name
        (rejectingToolchain.CompileGlslToSpv "B\n".toList shaderc_vertex_shader []
          (CompileSpirv.options .Vulcan true)).errorMessage := by
  refine ⟨by decide, by decide, rfl, by decide⟩

/-- C11 as amended: for every shader name, stage and compiler diagnostic, when the
compilation of a vertex or fragment stage fails, `CompileSpirv` stops at its assertion, the
target left as it was and the compiler called once; the message is
`Shader {name} failed to compile: ` followed by the diagnostic, so it contains the shader
name and the whole diagnostic text. The stage is no part of the message. -/
theorem CompileSpirv_failure_message (tc : Toolchain) (self : GlShader) (w : World)
    (target : List Nat) (source : StdString) (stage : GLenum) (targetEnv : RenderApi)
    (optimize : Bool) (kind : Nat) (hkind : Utils.GlEnumToShadercKind stage = .ok kind)
    (hfail : (tc.CompileGlslToSpv source kind self.m_filePath
      (CompileSpirv.options targetEnv optimize)).status ≠ shaderc_compilation_status_success) :
    GlShader.CompileSpirv tc self w target source stage targetEnv optimize
      = .fatal (.assertion (failedToCompile self.m_name
          (tc.CompileGlslToSpv source kind self.m_filePath
            (CompileSpirv.options targetEnv optimize)).errorMessage))
          (target, w.log (.compileGlslToSpv source kind self.m_filePath
            (CompileSpirv.options targetEnv optimize)))
    ∧ failedToCompile self.m_name
        (tc.CompileGlslToSpv source kind self.m_filePath
          (CompileSpirv.options targetEnv optimize)).errorMessage
      = "Shader \x7b".toList ++ self.m_name ++ "\x7d failed to compile: ".toList
        ++ (tc.CompileGlslToSpv source kind self.m_filePath
          (CompileSpirv.options targetEnv optimize)).errorMessage
    ∧ containsText (failedToCompile self.m_name
        (tc.CompileGlslToSpv source kind self.m_filePath
          (CompileSpirv.options targetEnv optimize)).errorMessage) self.m_name = true
    ∧ containsText (failedToCompile self.m_name
        (tc.CompileGlslToSpv source kind self.m_filePath
          (CompileSpirv.options targetEnv optimize)).errorMessage)
        (tc.CompileGlslToSpv source kind self.m_filePath
          (CompileSpirv.options targetEnv optimize)).errorMessage = true := by
  refine ⟨?_, rfl, ?_, ?_⟩
  · simp [GlShader.CompileSpirv, hkind, hfail]
  · unfold failedToCompile
    rw [List.append_assoc, List.append_assoc]
    exact containsText_append _ _ _
  · unfold failedToCompile
    have := containsText_append
      ("Shader \x7b".toList ++ self.m_name ++ "\x7d failed to compile: ".toList)
      (tc.CompileGlslToSpv source kind self.m_filePath
        (CompileSpirv.options targetEnv optimize)).errorMessage []
    simpa using this

theorem CompileSpirv_failure_message_witness :
    Utils.GlEnumToShadercKind GL_FRAGMENT_SHADER = .ok shaderc_fragment_shader
    ∧ (rejectingToolchain.CompileGlslToSpv "B\n".toList shaderc_fragment_shader
        sampleShader.m_filePath (CompileSpirv.options .OpenGl true)).status
      ≠ shaderc_compilation_status_success
    ∧ containsText (failedToCompile sampleShader.m_name
        (rejectingToolchain.CompileGlslToSpv "B\n".toList shaderc_fragment_shader
          sampleShader.m_filePath (CompileSpirv.options .OpenGl true)).errorMessage)
        sampleShader.m_name = true :=
  ⟨rfl, by decide,
    (CompileSpirv_failure_message rejectingToolchain sampleShader emptyWorld []
      "B\n".toList GL_FRAGMENT_SHADER .OpenGl true shaderc_fragment_shader rfl
      (by decide)).2.2.1⟩

/-! ## Cache files whose stream does not open -/

/-- C12: the claim does not hold of the code for the two binary artifacts. The portable-IR
artifact of the vertex stage is present but its stream does not open: `LoadBinary` skips
the read without a word, `GetVulcanBinaries` finishes with an empty vertex binary, and so
does `Init`. The native artifact of the vertex stage cannot be created: `SaveBinary` skips
the write, `Init` finishes and the artifact is still missing. Only the descriptor path
asserts on its stream: when the descriptor cannot be created, `Init` stops with
`cannot create file`. -/
theorem cache_stream_failure_not_fatal :
    (GlShader.GetVulcanBinaries stubToolchain sampleShader unreadableCacheWorld).isDone = true
    ∧ (GlShader.GetVulcanBinaries stubToolchain sampleShader
        unreadableCacheWorld).state.1.m_vulcanSPIRV
      = [(GL_VERTEX_SHADER, []), (GL_FRAGMENT_SHADER, [119734787, 65536, 0, 1, 10])]
    ∧ (GlShader.Init stubToolchain stubDevice sampleShader unreadableCacheWorld).isDone = true
    ∧ (GlShader.Init stubToolchain stubDevice sampleShader unwritableCacheWorld).isDone = true
    ∧ (GlShader.Init stubToolchain stubDevice sampleShader
        unwritableCacheWorld).state.2.disk.node "cache/shaders/s.vertglshader".toList = none
    ∧ GlShader.Init stubToolchain stubDevice sampleShader unwritableDescriptorWorld
      = .fatal (.assertion cannotCreateFile)
          (GlShader.Init stubToolchain stubDevice sampleShader unwritableDescriptorWorld).state := by
  decide

/-! ## The read of `LoadBinary` -/

/-- C17: the claim does not hold of the code when the size of the file is no multiple of
four. On a cache file of five bytes, which `HasCacheFile` accepts, `LoadBinary` resizes the
destination to one word, four bytes of storage, and tells `read` to copy five bytes into
it, so that the call ends in the overrun. For every size `n` the destination is resized to
`n / 4` words, and the `n` bytes fit its `4 * (n / 4)` bytes exactly when `n` is a multiple
of four. -/
theorem LoadBinary_reads_past_destination :
    (Utils.HasCacheFile truncatedCacheWorld "cache/shaders/s.vertvshader".toList).1 = .ok true
    ∧ Utils.LoadBinary.readRequest truncatedCacheWorld "cache/shaders/s.vertvshader".toList []
      = some (4, 5)
    ∧ ¬ 5 ≤ 4
    ∧ (Utils.LoadBinary truncatedCacheWorld "cache/shaders/s.vertvshader".toList []).1
      = .error (.overrun "cache/shaders/s.vertvshader".toList 4 5)
    ∧ ∀ (n : Nat) (destination : List Nat),
        (vectorResize destination (n / 4)).length = n / 4
        ∧ (n ≤ 4 * (vectorResize destination (n / 4)).length ↔ n % 4 = 0) := by
  refine ⟨rfl, rfl, by decide, rfl, ?_⟩
  intro n destination
  rw [vectorResize_length]
  exact ⟨rfl, by omega⟩

/-! ## The cache layout -/

theorem cacheFileExtension_listed (kind : ArtifactKind) (stage : GLenum) (ext : StdString)
    (h : cacheFileExtension kind stage = .ok ext) : (kind, stage, ext) ∈ listedExtensions := by
  by_cases hv : stage = GL_VERTEX_SHADER
  · subst hv
    cases kind <;>
      · simp only [cacheFileExtension, Utils.GetVulcanCacheFileExtension,
          Utils.GetOpenGlCacheFileExtension, Utils.GetDescriptiorFileExtension, if_true,
          Except.ok.injEq] at h
        subst h
        decide
  · by_cases hf : stage = GL_FRAGMENT_SHADER
    · subst hf
      cases kind <;>
        · simp only [cacheFileExtension, Utils.GetVulcanCacheFileExtension,
            Utils.GetOpenGlCacheFileExtension, Utils.GetDescriptiorFileExtension,
            if_neg hv, if_true, Except.ok.injEq] at h
          subst h
          decide
    · cases kind <;>
        simp [cacheFileExtension, Utils.GetVulcanCacheFileExtension,
          Utils.GetOpenGlCacheFileExtension, Utils.GetDescriptiorFileExtension, hv, hf] at h

theorem suffix_eq_drop (e1 e2 a : StdString) (h : e1 = a ++ e2) :
    e2 = e1.drop (e1.length - e2.length) := by
  subst h
  simp

theorem listedExtensions_no_suffix :
    ∀ t1 ∈ listedExtensions, ∀ t2 ∈ listedExtensions,
      t2.2.2 = t1.2.2.drop (t1.2.2.length - t2.2.2.length) → t1 = t2 := by
  decide

theorem append_extension_inj (n1 n2 : StdString) (t1 t2 : ArtifactKind × GLenum × StdString)
    (h1 : t1 ∈ listedExtensions) (h2 : t2 ∈ listedExtensions)
    (h : n1 ++ t1.2.2 = n2 ++ t2.2.2) : n1 = n2 ∧ t1 = t2 := by
  rcases List.append_eq_append_iff.mp h with ⟨a, hn, he⟩ | ⟨c, hn, he⟩
  · have ht := listedExtensions_no_suffix t1 h1 t2 h2 (suffix_eq_drop _ _ a he)
    subst ht
    have ha : a = [] := by simpa using he
    subst ha
    exact ⟨by simpa using hn.symm, rfl⟩
  · have ht := listedExtensions_no_suffix t2 h2 t1 h1 (suffix_eq_drop _ _ c he)
    subst ht
    have hc : c = [] := by simpa using he
    subst hc
    exact ⟨by simpa using hn, rfl⟩

theorem Path_append_cache_directory (x : StdString) :
    Path.append Utils.GetCacheDirectory x
      = if x.head? = some '/' then x else Utils.GetCacheDirectory ++ '/' :: x := by
  have hdir : ¬ (Utils.GetCacheDirectory = [] ∨ Utils.GetCacheDirectory.getLast? = some '/') := by
    decide
  cases x with
  | nil => simp [Path.append, hdir]
  | cons c cs =>
    by_cases hc : c = '/'
    · subst hc
      simp [Path.append]
    · have hne : ¬ (some c = some '/') := fun h => hc (Option.some.inj h)
      simp only [List.head?_cons, if_neg hne]
      unfold Path.append
      split
      · rename_i tail heq
        exact absurd (List.cons.inj heq).1 hc
      · rw [if_neg hdir]

theorem Path_append_inj (x y : StdString)
    (h : Path.append Utils.GetCacheDirectory x = Path.append Utils.GetCacheDirectory y) :
    x = y := by
  have hd : Utils.GetCacheDirectory = 'c' :: "ache/shaders".toList := by decide
  rw [Path_append_cache_directory, Path_append_cache_directory] at h
  by_cases hx : x.head? = some '/'
  · by_cases hy : y.head? = some '/'
    · simpa [hx, hy] using h
    · rw [if_pos hx, if_neg hy] at h
      have := congrArg List.head? h
      rw [hx, hd] at this
      simp at this
  · by_cases hy : y.head? = some '/'
    · rw [if_neg hx, if_pos hy] at h
      have := congrArg List.head? h
      rw [hy, hd] at this
      simp at this
    · rw [if_neg hx, if_neg hy] at h
      exact (List.cons.inj (List.append_cancel_left h)).2

/-- C14: the cache file name is a function of the artifact identity that never gives one
name to two identities: for all names, stages and kinds, when the name of one followed by
its extension equals the name of the other followed by its extension, the two names, the
two stages and the two kinds are equal; the same holds of the paths below the cache
directory. -/
theorem cache_file_name_injective (n1 n2 : StdString) (s1 s2 : GLenum) (k1 k2 : ArtifactKind)
    (e1 e2 : StdString) (h1 : cacheFileExtension k1 s1 = .ok e1)
    (h2 : cacheFileExtension k2 s2 = .ok e2) :
    (n1 ++ e1 = n2 ++ e2 → n1 = n2 ∧ s1 = s2 ∧ k1 = k2)
    ∧ (Path.append Utils.GetCacheDirectory (n1 ++ e1)
        = Path.append Utils.GetCacheDirectory (n2 ++ e2) → n1 = n2 ∧ s1 = s2 ∧ k1 = k2) := by
  have key : n1 ++ e1 = n2 ++ e2 → n1 = n2 ∧ s1 = s2 ∧ k1 = k2 := by
    intro h
    obtain ⟨hn, ht⟩ := append_extension_inj n1 n2 (k1, s1, e1) (k2, s2, e2)
      (cacheFileExtension_listed k1 s1 e1 h1) (cacheFileExtension_listed k2 s2 e2 h2) h
    simp only [Prod.mk.injEq] at ht
    exact ⟨hn, ht.2.1, ht.1⟩
  exact ⟨key, fun h => key (Path_append_inj _ _ h)⟩

theorem cache_file_name_injective_witness :
    cacheFileExtension .portableIR GL_VERTEX_SHADER = .ok ".vertvshader".toList
    ∧ cacheFileExtension .native GL_VERTEX_SHADER = .ok ".vertglshader".toList
    ∧ ("s".toList ++ ".vertvshader".toList = "s".toList ++ ".vertvshader".toList)
    ∧ ("s".toList = "s".toList ∧ GL_VERTEX_SHADER = GL_VERTEX_SHADER
        ∧ ArtifactKind.portableIR = ArtifactKind.portableIR)
    ∧ ¬ ("s.vertgl".toList ++ ".vertvshader".toList = "s".toList ++ ".vertglshader".toList) :=
  ⟨rfl, rfl, rfl,
    (cache_file_name_injective "s".toList "s".toList GL_VERTEX_SHADER GL_VERTEX_SHADER
      .portableIR .portableIR ".vertvshader".toList ".vertvshader".toList rfl rfl).1 rfl,
    fun h => absurd
      ((cache_file_name_injective "s.vertgl".toList "s".toList GL_VERTEX_SHADER GL_VERTEX_SHADER
        .portableIR .native ".vertvshader".toList ".vertglshader".toList rfl rfl).1 h).2.2
      (by decide)⟩

theorem firstCall_log (w : World) (e : Event) (rest : List Event) :
    firstCall w.trace (w.trace ++ e :: rest) = some e := by
  simp [firstCall]

theorem HasCacheFile_trace (w : World) (path : Path) :
    ∃ rest, (Utils.HasCacheFile w path).2.trace = w.trace ++ .fsExists path :: rest := by
  unfold Utils.HasCacheFile
  simp only []
  split
  · split
    · exact ⟨[.fsFileSize path], by simp [World.log]⟩
    · exact ⟨[.fsFileSize path], by simp [World.log]⟩
  · exact ⟨[], by simp [World.log]⟩

theorem CompileSpirv_trace (tc : Toolchain) (self : GlShader) (w : World) (target : List Nat)
    (source : StdString) (stage : GLenum) (targetEnv : RenderApi) (optimize : Bool) :
    ∃ rest, (GlShader.CompileSpirv tc self w target source stage targetEnv optimize).state.2.trace
      = w.trace ++ rest := by
  unfold GlShader.CompileSpirv
  simp only []
  split
  · exact ⟨[], by simp [Outcome.state]⟩
  · split
    · exact ⟨_, rfl⟩
    · exact ⟨_, rfl⟩

/-- The first call an iteration of the descriptor loop makes asks whether the descriptor
file of the stage exists. -/
theorem CreateDesctiptorIfNeeded_body_firstCall (tc : Toolchain) (self : GlShader) (w : World)
    (stage : GLenum) (source ext : StdString)
    (hext : Utils.GetDescriptiorFileExtension stage = .ok ext) :
    firstCall w.trace (CreateDesctiptorIfNeeded.body tc self w (stage, source)).state.trace
      = some (.fsExists (Path.append Utils.GetCacheDirectory (self.m_name ++ ext))) := by
  obtain ⟨r0, hr0⟩ := HasCacheFile_trace w (Path.append Utils.GetCacheDirectory (self.m_name ++ ext))
  simp only [CreateDesctiptorIfNeeded.body, hext]
  cases hh : Utils.HasCacheFile w (Path.append Utils.GetCacheDirectory (self.m_name ++ ext)) with
  | mk res w1 =>
    rw [hh] at hr0
    simp only [] at hr0
    cases res with
    | error e =>
      simp only [Outcome.state, hr0]
      exact firstCall_log w _ _
    | ok b =>
      cases b with
      | true =>
        simp only []
        split
        · split
          · simp only [Outcome.state, World_log_trace, hr0, List.append_assoc, List.cons_append]
            exact firstCall_log w _ _
          · simp only [Outcome.state, World_log_trace, hr0, List.append_assoc, List.cons_append]
            exact firstCall_log w _ _
        · simp only [Outcome.state, World_log_trace, hr0, List.append_assoc, List.cons_append]
          exact firstCall_log w _ _
      | false =>
        simp only []
        obtain ⟨r1, hr1⟩ := CompileSpirv_trace tc self w1 [] source stage .Vulcan false
        cases hc : GlShader.CompileSpirv tc self w1 [] source stage .Vulcan false with
        | fatal e st =>
          rw [hc] at hr1
          simp only [Outcome.state] at hr1
          simp only [Outcome.state, hr1, hr0, List.append_assoc, List.cons_append]
          exact firstCall_log w _ _
        | done st =>
          rw [hc] at hr1
          simp only [Outcome.state] at hr1
          simp only []
          split
          · simp only [Outcome.state, World_log_trace, hr1, hr0, List.append_assoc,
              List.cons_append]
            exact firstCall_log w _ _
          · simp only [Outcome.state, World_log_trace, hr1, hr0, List.append_assoc,
              List.cons_append]
            exact firstCall_log w _ _

/-- C13: for every shader name, the cache file of each artifact is `cache/shaders` joined
(as `std::filesystem::path::append` joins) with the name followed by a fixed extension:
`.vertvshader` and `.pixelvshader` for the portable-IR binary of the vertex and the
fragment stage, `.vertglshader` and `.pixelglshader` for the native binary, and
`.vertdesc.json` and `.pixeldesc.json` for the descriptor, whose loop opens by asking
whether that file exists. For a name that does not begin with a slash the path reads
`cache/shaders/`, the name, the extension. -/
theorem cache_paths_layout (tc : Toolchain) (self : GlShader) (w : World) (source : StdString) :
    (∀ kind stage ext, cacheFileExtension kind stage = .ok ext
      ↔ (kind, stage, ext) ∈ listedExtensions)
    ∧ Utils.GetVulcanCachePath self.m_name GL_VERTEX_SHADER
      = .ok (Path.append "cache/shaders".toList (self.m_name ++ ".vertvshader".toList))
    ∧ Utils.GetVulcanCachePath self.m_name GL_FRAGMENT_SHADER
      = .ok (Path.append "cache/shaders".toList (self.m_name ++ ".pixelvshader".toList))
    ∧ Utils.GetOpenGlCachePath self.m_name GL_VERTEX_SHADER
      = .ok (Path.append "cache/shaders".toList (self.m_name ++ ".vertglshader".toList))
    ∧ Utils.GetOpenGlCachePath self.m_name GL_FRAGMENT_SHADER
      = .ok (Path.append "cache/shaders".toList (self.m_name ++ ".pixelglshader".toList))
    ∧ firstCall w.trace
        (CreateDesctiptorIfNeeded.body tc self w (GL_VERTEX_SHADER, source)).state.trace
      = some (.fsExists
          (Path.append "cache/shaders".toList (self.m_name ++ ".vertdesc.json".toList)))
    ∧ firstCall w.trace
        (CreateDesctiptorIfNeeded.body tc self w (GL_FRAGMENT_SHADER, source)).state.trace
      = some (.fsExists
          (Path.append "cache/shaders".toList (self.m_name ++ ".pixeldesc.json".toList)))
    ∧ (self.m_name.head? ≠ some '/' → ∀ ext : StdString, ext.head? = some '.' →
        Path.append "cache/shaders".toList (self.m_name ++ ext)
          = "cache/shaders/".toList ++ self.m_name ++ ext) := by
  refine ⟨?_, rfl, rfl, rfl, rfl, ?_, ?_, ?_⟩
  · intro kind stage ext
    constructor
    · exact cacheFileExtension_listed kind stage ext
    · intro h
      simp only [listedExtensions, List.mem_cons, Prod.mk.injEq, List.mem_singleton,
        List.not_mem_nil, or_false] at h
      rcases h with ⟨hk, hs, he⟩ | ⟨hk, hs, he⟩ | ⟨hk, hs, he⟩ | ⟨hk, hs, he⟩ | ⟨hk, hs, he⟩
        | ⟨hk, hs, he⟩ <;> subst hk hs he <;> rfl
  · exact CreateDesctiptorIfNeeded_body_firstCall tc self w GL_VERTEX_SHADER source _ rfl
  · exact CreateDesctiptorIfNeeded_body_firstCall tc self w GL_FRAGMENT_SHADER source _ rfl
  · intro hname ext hext
    have hhead : ¬ (self.m_name ++ ext).head? = some '/' := by
      cases hn : self.m_name with
      | nil =>
        rw [List.nil_append, hext]
        decide
      | cons c cs =>
        rw [hn] at hname
        simpa using hname
    have hdir : "cache/shaders".toList = Utils.GetCacheDirectory := rfl
    have hslash : "cache/shaders/".toList = Utils.GetCacheDirectory ++ ['/'] := by decide
    rw [hdir, Path_append_cache_directory, if_neg hhead, hslash]
    simp

theorem cache_paths_layout_witness :
    sampleShader.m_name.head? ≠ some '/' ∧ ".vertvshader".toList.head? = some '.'
    ∧ Path.append "cache/shaders".toList (sampleShader.m_name ++ ".vertvshader".toList)
      = "cache/shaders/".toList ++ sampleShader.m_name ++ ".vertvshader".toList
    ∧ "cache/shaders/".toList ++ sampleShader.m_name ++ ".vertvshader".toList
      = "cache/shaders/s.vertvshader".toList :=
  ⟨by decide, by decide,
    (cache_paths_layout stubToolchain sampleShader emptyWorld []).2.2.2.2.2.2.2 (by decide)
      ".vertvshader".toList (by decide),
    by decide⟩

end ant.OpenGl
